import Mathlib

/-!
# Wallet control plane (`src/wallet/api/wallet.cpp`)

A shallow embedding of `Bitmonero::WalletImpl`: the controller's fields are a
record, every member function is a function on that record, and the external
wallet engine (`tools::wallet2`) is an oracle whose answers may depend on the
whole history of events so far.  Each operation returns the new record, the
events it emitted (engine calls, condition-variable signals, thread joins,
listener callbacks) in program order, and either its return value or the
exception that left it.

Operations are modelled one at a time, as run by a single caller thread.
-/

namespace Bitmonero

/-- The `Wallet::Status` enumeration. -/
inductive Status
  | Status_Ok
  | Status_Error
  deriving DecidableEq

/-- Exceptions the engine can throw, one constructor for each handler of the
cascade in `createTransaction`: an exception is filed under the first handler
that catches it.  The `tools::error` classes all derive from `std::exception`;
`what` is the text of `what()`.  The other fields are the accessors the
handlers read (`tx_hash` is the hash of `e.tx()` as the stream prints it).
`non_std` is any thrown object that is not a `std::exception`. -/
inductive Exc
  | daemon_busy (what : String)
  | no_connection_to_daemon (what : String)
  | wallet_rpc_error (what : String) (to_string : String)
  | get_random_outs_error (what : String)
  | not_enough_money (what : String) (available tx_amount fee : Nat)
  | not_enough_outs_to_mix (what : String) (mixin_count : Nat) (scanty_outs : List (Nat × Nat))
  | tx_not_constructed (what : String)
  | tx_rejected (what : String) (tx_hash : String) (status : String)
  | tx_sum_overflow (what : String)
  | zero_destination (what : String)
  | tx_too_big (what : String)
  | transfer_error (what : String)
  | wallet_internal_error (what : String)
  | std_exception (what : String)
  | non_std
  deriving DecidableEq

/-- What a handler `catch (const std::exception &e)` sees: `some e.what()` when
the thrown object is a `std::exception`, `none` when the handler does not
match. -/
def Exc.std_what : Exc → Option String
  | .daemon_busy w => some w
  | .no_connection_to_daemon w => some w
  | .wallet_rpc_error w _ => some w
  | .get_random_outs_error w => some w
  | .not_enough_money w _ _ _ => some w
  | .not_enough_outs_to_mix w _ _ => some w
  | .tx_not_constructed w => some w
  | .tx_rejected w _ _ => some w
  | .tx_sum_overflow w => some w
  | .zero_destination w => some w
  | .tx_too_big w => some w
  | .transfer_error w => some w
  | .wallet_internal_error w => some w
  | .std_exception w => some w
  | .non_std => none

/-- Result of one engine call: a normal return or a thrown exception. -/
inductive Outcome (α : Type)
  | ret (a : α)
  | throw (x : Exc)

/-- How a controller operation ends: it returns a value, or an exception
leaves it. -/
inductive Res (α : Type)
  | returned (a : α)
  | escaped (x : Exc)
  deriving DecidableEq

/-- A `cryptonote::tx_destination_entry`. -/
structure DestinationEntry where
  addr : String
  amount : Nat
  deriving DecidableEq

/-- The extra nonce built from a payment id: the cleartext long id, or the
short id marked for encryption. -/
inductive ExtraNonce
  | payment_id (long_id : String)
  | encrypted_payment_id (short_id : String)
  deriving DecidableEq

/-- The callbacks of `WalletListener`. -/
inductive Callback
  | moneySpent (txId : String) (amount : Nat)
  | moneyReceived (txId : String) (amount : Nat)
  | updated
  | refreshed
  deriving DecidableEq

/-- Everything an operation does outside the controller record, in program
order: calls on `m_wallet`, `m_refreshCV.notify_one()`,
`m_refreshThread.join()` and calls on the registered listener.  The
`recovery_param` of `generate` is `none` for the default-constructed key that
`create` passes and `some k` for the key recovered from a seed. -/
inductive Event
  | wallet_exists (path : String)
  | set_seed_language (language : String)
  | generate (path password : String) (recovery_param : Option Nat) (recover two_random : Bool)
  | load (path password : String)
  | store
  | store_to (path password : String)
  | stop
  | get_wallet_file
  | rewrite (file password : String)
  | refresh
  | check_connection
  | get_daemon_address
  | default_mixin
  | testnet
  | create_transactions_2 (dsts : List DestinationEntry) (fake_outs_count unlock_time : Nat)
      (fee_multiplier : Nat) (extra : List ExtraNonce) (trusted_daemon : Bool)
  | notify_one
  | join
  | listener (l : Nat) (cb : Callback)
  deriving DecidableEq

/-- The external collaborators.  Every method of `tools::wallet2` takes the
history of events before the call, so an engine may answer the same call
differently at different times.  The last three fields are the pure helpers
`crypto::ElectrumWords::words_to_bytes`,
`cryptonote::get_account_integrated_address_from_str` (address, whether it is
integrated, embedded short id) and `cryptonote::print_money`. -/
structure Engine where
  wallet_exists : List Event → String → Bool × Bool
  set_seed_language : List Event → String → Outcome Unit
  generate : List Event → String → String → Option Nat → Bool → Bool → Outcome Nat
  load : List Event → String → String → Outcome Unit
  store : List Event → Outcome Unit
  store_to : List Event → String → String → Outcome Unit
  stop : List Event → Outcome Unit
  get_wallet_file : List Event → String
  rewrite : List Event → String → String → Outcome Unit
  refresh : List Event → Outcome Unit
  check_connection : List Event → Bool
  get_daemon_address : List Event → String
  default_mixin : List Event → Nat
  testnet : List Event → Bool
  create_transactions_2 : List Event → List DestinationEntry → Nat → Nat → Nat →
    List ExtraNonce → Bool → Outcome (List Nat)
  words_to_bytes : String → Option (Nat × String)
  get_account_integrated_address_from_str : Bool → String → Option (String × Bool × String)
  print_money : Nat → String

/-- The fields of `WalletImpl` that the operations read or write.
`m_listener` is the listener pointer held by `m_wallet2Callback`. -/
structure WalletImpl where
  m_status : Status
  m_errorString : String
  m_password : String
  m_trustedDaemon : Bool
  m_listener : Option Nat
  m_refreshEnabled : Bool
  m_refreshThreadDone : Bool
  m_refreshIntervalSeconds : Nat
  deriving DecidableEq

/-- A `PendingTransactionImpl`: status, error text and the built transfers. -/
structure PendingTransactionImpl where
  m_status : Status
  m_errorString : String
  m_pending_tx : List Nat
  deriving DecidableEq

/-- One execution of an operation: the controller afterwards, the events it
emitted, and how it ended. -/
structure Run (α : Type) where
  w : WalletImpl
  calls : List Event
  res : Res α

def DEFAULT_MIXIN : Nat := 4

def DEFAULT_REFRESH_INTERVAL_SECONDS : Nat := 10

/-- The state set up by the constructor `WalletImpl::WalletImpl`. -/
def WalletImpl.ctor : WalletImpl :=
  { m_status := .Status_Ok
    m_errorString := ""
    m_password := ""
    m_trustedDaemon := false
    m_listener := none
    m_refreshEnabled := false
    m_refreshThreadDone := false
    m_refreshIntervalSeconds := DEFAULT_REFRESH_INTERVAL_SECONDS }

/-- `WalletImpl::clearStatus`. -/
def clearStatus (w : WalletImpl) : WalletImpl :=
  { w with m_status := .Status_Ok, m_errorString := "" }

/-- `WalletImpl::status`. -/
def status (w : WalletImpl) : Status := w.m_status

/-- `WalletImpl::create`. -/
def create (e : Engine) (h : List Event) (w : WalletImpl)
    (path password language : String) : Run Bool :=
  let w1 := clearStatus w
  let ex := e.wallet_exists h path
  let c1 := [Event.wallet_exists path]
  if ex.1 || ex.2 then
    ⟨{ w1 with
        m_errorString := "attempting to generate or restore wallet, but specified file(s) exist.  Exiting to not risk overwriting."
        m_status := .Status_Error },
      c1, .returned false⟩
  else
    let c2 := c1 ++ [Event.set_seed_language language]
    match e.set_seed_language (h ++ c1) language with
    | .throw x => ⟨w1, c2, .escaped x⟩
    | .ret _ =>
      let c3 := c2 ++ [Event.generate path password none false false]
      match e.generate (h ++ c2) path password none false false with
      | .ret _ => ⟨{ w1 with m_password := password, m_status := .Status_Ok }, c3, .returned true⟩
      | .throw x =>
        match x.std_what with
        | some msg => ⟨{ w1 with m_status := .Status_Error, m_errorString := msg }, c3, .returned false⟩
        | none => ⟨w1, c3, .escaped x⟩

/-- `WalletImpl::open`. -/
def open_ (e : Engine) (h : List Event) (w : WalletImpl) (path password : String) : Run Bool :=
  let w1 := clearStatus w
  let c1 := [Event.load path password]
  match e.load h path password with
  | .ret _ =>
    let w2 := { w1 with m_password := password }
    ⟨w2, c1, .returned (decide (w2.m_status = .Status_Ok))⟩
  | .throw x =>
    match x.std_what with
    | some msg =>
      let w2 := { w1 with m_status := .Status_Error, m_errorString := msg }
      ⟨w2, c1, .returned (decide (w2.m_status = .Status_Ok))⟩
    | none => ⟨w1, c1, .escaped x⟩

/-- `WalletImpl::recover`. -/
def recover (e : Engine) (h : List Event) (w : WalletImpl) (path seed : String) : Run Bool :=
  let w1 := { clearStatus w with m_errorString := "" }
  if seed = "" then
    ⟨{ w1 with m_errorString := "Electrum seed is empty", m_status := .Status_Error }, [],
      .returned false⟩
  else
    match e.words_to_bytes seed with
    | none =>
      ⟨{ w1 with m_errorString := "Electrum-style word list failed verification",
                 m_status := .Status_Error }, [], .returned false⟩
    | some (recovery_key, old_language) =>
      let c1 := [Event.set_seed_language old_language]
      let c2 := c1 ++ [Event.generate path "" (some recovery_key) true false]
      let caught (x : Exc) (calls : List Event) : Run Bool :=
        match x.std_what with
        | some msg =>
          let w2 := { w1 with m_status := .Status_Error, m_errorString := msg }
          ⟨w2, calls, .returned (decide (w2.m_status = .Status_Ok))⟩
        | none => ⟨w1, calls, .escaped x⟩
      match e.set_seed_language h old_language with
      | .throw x => caught x c1
      | .ret _ =>
        match e.generate (h ++ c1) path "" (some recovery_key) true false with
        | .throw x => caught x c2
        | .ret _ => ⟨w1, c2, .returned (decide (w1.m_status = .Status_Ok))⟩

/-- The handler of `WalletImpl::close`: a `std::exception` sets the error
state and `result` stays false; anything else leaves the function. -/
def close_catch (w : WalletImpl) (calls : List Event) (x : Exc) : Run Bool :=
  match x.std_what with
  | some msg => ⟨{ w with m_status := .Status_Error, m_errorString := msg }, calls, .returned false⟩
  | none => ⟨w, calls, .escaped x⟩

/-- The call `m_wallet->stop()` in `WalletImpl::close` and what follows it;
`calls` are the events emitted before it. -/
def close_stop (e : Engine) (h : List Event) (w : WalletImpl) (calls : List Event) : Run Bool :=
  match e.stop (h ++ calls) with
  | .ret _ => ⟨clearStatus w, calls ++ [Event.stop], .returned true⟩
  | .throw x => close_catch w (calls ++ [Event.stop]) x

/-- `WalletImpl::close`. -/
def close (e : Engine) (h : List Event) (w : WalletImpl) : Run Bool :=
  if status w = .Status_Ok then
    match e.store h with
    | .ret _ => close_stop e h w [Event.store]
    | .throw x => close_catch w [Event.store] x
  else
    close_stop e h w []

/-- `WalletImpl::setPassword`. -/
def setPassword (e : Engine) (h : List Event) (w : WalletImpl) (password : String) : Run Bool :=
  let w1 := clearStatus w
  let file := e.get_wallet_file h
  let c1 := [Event.get_wallet_file, Event.rewrite file password]
  match e.rewrite (h ++ [Event.get_wallet_file]) file password with
  | .ret _ =>
    let w2 := { w1 with m_password := password }
    ⟨w2, c1, .returned (decide (w2.m_status = .Status_Ok))⟩
  | .throw x =>
    match x.std_what with
    | some msg =>
      let w2 := { w1 with m_status := .Status_Error, m_errorString := msg }
      ⟨w2, c1, .returned (decide (w2.m_status = .Status_Ok))⟩
    | none => ⟨w1, c1, .escaped x⟩

/-- `WalletImpl::store`. -/
def store (e : Engine) (h : List Event) (w : WalletImpl) (path : String) : Run Bool :=
  let w1 := clearStatus w
  let c1 := if path = "" then [Event.store] else [Event.store_to path w1.m_password]
  let r := if path = "" then e.store h else e.store_to h path w1.m_password
  match r with
  | .ret _ => ⟨w1, c1, .returned (decide (w1.m_status = .Status_Ok))⟩
  | .throw x =>
    match x.std_what with
    | some msg =>
      let w2 := { w1 with m_status := .Status_Error, m_errorString := msg }
      ⟨w2, c1, .returned (decide (w2.m_status = .Status_Ok))⟩
    | none => ⟨w1, c1, .escaped x⟩

/-- The end of `WalletImpl::doRefresh`: `refreshed()` on the listener, if one
is registered. -/
def doRefresh_listener (w : WalletImpl) (calls : List Event) : Run Unit :=
  match w.m_listener with
  | some l => ⟨w, calls ++ [Event.listener l Callback.refreshed], .returned ()⟩
  | none => ⟨w, calls, .returned ()⟩

/-- `WalletImpl::doRefresh`. -/
def doRefresh (e : Engine) (h : List Event) (w : WalletImpl) : Run Unit :=
  match e.refresh h with
  | .ret _ => doRefresh_listener w [Event.refresh]
  | .throw x =>
    match x.std_what with
    | some msg =>
      doRefresh_listener { w with m_status := .Status_Error, m_errorString := msg } [Event.refresh]
    | none => ⟨w, [Event.refresh], .escaped x⟩

/-- `WalletImpl::refresh`. -/
def refresh (e : Engine) (h : List Event) (w : WalletImpl) : Run Bool :=
  let r := doRefresh e h (clearStatus w)
  match r.res with
  | .returned _ => ⟨r.w, r.calls, .returned (decide (r.w.m_status = .Status_Ok))⟩
  | .escaped x => ⟨r.w, r.calls, .escaped x⟩

/-- `WalletImpl::refreshAsync`. -/
def refreshAsync (w : WalletImpl) : Run Unit :=
  ⟨clearStatus w, [Event.notify_one], .returned ()⟩

/-- `WalletImpl::setListener` (through `Wallet2CallbackImpl::setListener`). -/
def setListener (w : WalletImpl) (l : Option Nat) : WalletImpl :=
  { w with m_listener := l }

/-- `WalletImpl::setTrustedDaemon`. -/
def setTrustedDaemon (w : WalletImpl) (arg : Bool) : WalletImpl :=
  { w with m_trustedDaemon := arg }

/-- `WalletImpl::connectToDaemon`. -/
def connectToDaemon (e : Engine) (h : List Event) (w : WalletImpl) : Run Bool :=
  let result := e.check_connection h
  let w1 := { w with m_status := if result then .Status_Ok else .Status_Error }
  if !result then
    ⟨{ w1 with m_errorString :=
          "Error connecting to daemon at " ++ e.get_daemon_address (h ++ [Event.check_connection]) },
      [Event.check_connection, Event.get_daemon_address], .returned result⟩
  else
    ⟨w1, [Event.check_connection], .returned result⟩

/-- `WalletImpl::startRefresh`. -/
def startRefresh (w : WalletImpl) : Run Unit :=
  if !w.m_refreshEnabled then
    ⟨{ w with m_refreshEnabled := true }, [Event.notify_one], .returned ()⟩
  else
    ⟨w, [], .returned ()⟩

/-- `WalletImpl::stopRefresh`. -/
def stopRefresh (w : WalletImpl) : Run Unit :=
  if !w.m_refreshThreadDone then
    ⟨{ w with m_refreshEnabled := false, m_refreshThreadDone := true }, [Event.join], .returned ()⟩
  else
    ⟨w, [], .returned ()⟩

/-- `WalletImpl::pauseRefresh`. -/
def pauseRefresh (w : WalletImpl) : Run Unit :=
  if !w.m_refreshThreadDone then
    ⟨{ w with m_refreshEnabled := false }, [], .returned ()⟩
  else
    ⟨w, [], .returned ()⟩

/-- Modelled from the spec: the `tr` macro of `common_defines.h`, which is not
among the sources; the spec gives every message untranslated. -/
def tr (s : String) : String := s

/-- A hexadecimal digit, either case. -/
def isHexChar (c : Char) : Bool :=
  ('0' ≤ c && c ≤ '9') || ('a' ≤ c && c ≤ 'f') || ('A' ≤ c && c ≤ 'F')

/-- A string of exactly `n` hexadecimal characters. -/
def isHexString (n : Nat) (s : String) : Bool :=
  decide (s.data.length = n) && s.data.all isHexChar

/-- Modelled from the spec: `tools::wallet2::parse_long_payment_id`, which is
not among the sources; the spec has it accept a 64-hex-character long id.  The
parsed id is kept as its hex text. -/
def parse_long_payment_id (payment_id : String) : Option String :=
  if isHexString 64 payment_id then some payment_id else none

/-- Modelled from the spec: `tools::wallet2::parse_short_payment_id`, which is
not among the sources; the spec has it accept a 16-hex-character short id. -/
def parse_short_payment_id (payment_id : String) : Option String :=
  if isHexString 16 payment_id then some payment_id else none

/-- Modelled from the spec: `cryptonote::set_payment_id_to_tx_extra_nonce`,
which is not among the sources: the long id goes into the nonce in
cleartext. -/
def set_payment_id_to_tx_extra_nonce (payment_id_long : String) : ExtraNonce :=
  .payment_id payment_id_long

/-- Modelled from the spec: `set_encrypted_payment_id_to_tx_extra_nonce`, which
is not among the sources: the short id goes into the nonce as the encrypted
kind. -/
def set_encrypted_payment_id_to_tx_extra_nonce (payment_id_short : String) : ExtraNonce :=
  .encrypted_payment_id payment_id_short

/-- Modelled from the spec: `add_extra_nonce_to_tx_extra`, which is not among
the sources: the resolved id is encoded into the extra blob.  It returns its
success flag and the new blob. -/
def add_extra_nonce_to_tx_extra (extra : List ExtraNonce) (extra_nonce : ExtraNonce) :
    Bool × List ExtraNonce :=
  (true, extra ++ [extra_nonce])

/-- The payment-id block of `WalletImpl::createTransaction`: the extra blob it
leaves, or `none` when `r` ends false. -/
def createTransaction_payment_id (has_payment_id : Bool) (payment_id : String) :
    Option (List ExtraNonce) :=
  let extra : List ExtraNonce := []
  if !has_payment_id && !decide (payment_id = "") then
    match parse_long_payment_id payment_id with
    | some payment_id_long =>
      let r := add_extra_nonce_to_tx_extra extra (set_payment_id_to_tx_extra_nonce payment_id_long)
      if r.1 then some r.2 else none
    | none =>
      match parse_short_payment_id payment_id with
      | some payment_id_short =>
        let r := add_extra_nonce_to_tx_extra extra
          (set_encrypted_payment_id_to_tx_extra_nonce payment_id_short)
        if r.1 then some r.2 else none
      | none => none
  else
    some extra

/-- One line of the `not_enough_outs_to_mix` message, for one entry of
`scanty_outs`. -/
def scanty_out_line (e : Engine) (outs_for_amount : Nat × Nat) : String :=
  "\n" ++ tr "output amount" ++ " = " ++ e.print_money outs_for_amount.1 ++ ", " ++
    tr "found outputs to mix" ++ " = " ++ toString outs_for_amount.2

/-- The handlers after the `try` of `WalletImpl::createTransaction`, in the
order they are written: the error string each one sets. -/
def createTransaction_catch (e : Engine) : Exc → String
  | .daemon_busy _ => tr "daemon is busy. Please try again later."
  | .no_connection_to_daemon _ => tr "no connection to daemon. Please make sure daemon is running."
  | .wallet_rpc_error _ to_string => tr "RPC error: " ++ to_string
  | .get_random_outs_error _ => tr "failed to get random outputs to mix"
  | .not_enough_money _ available tx_amount fee =>
    "not enough money to transfer, available only " ++ e.print_money available ++
      ", transaction amount " ++ e.print_money ((tx_amount + fee) % 2 ^ 64) ++ " = " ++
      e.print_money tx_amount ++ " + " ++ e.print_money fee ++ " (fee)"
  | .not_enough_outs_to_mix _ mixin_count scanty_outs =>
    tr "not enough outputs for specified mixin_count" ++ " = " ++ toString mixin_count ++ ":" ++
      String.join (scanty_outs.map (scanty_out_line e))
  | .tx_not_constructed _ => tr "transaction was not constructed"
  | .tx_rejected _ tx_hash status =>
    "transaction " ++ tx_hash ++ " was rejected by daemon with status: " ++ status
  | .tx_sum_overflow what => what
  | .zero_destination _ => tr "one of destinations is zero"
  | .tx_too_big _ => tr "failed to find a suitable way to split transactions"
  | .transfer_error what => tr "unknown transfer error: " ++ what
  | .wallet_internal_error what => tr "internal error: " ++ what
  | .std_exception what => tr "unexpected error: " ++ what
  | .non_std => tr "unknown error"

/-- The last three lines of `WalletImpl::createTransaction`: the transaction
takes the controller's status and error string and is returned. -/
def createTransaction_return (w : WalletImpl) (calls : List Event) (pending_tx : List Nat) :
    Run PendingTransactionImpl :=
  ⟨w, calls, .returned
    { m_status := w.m_status, m_errorString := w.m_errorString, m_pending_tx := pending_tx }⟩

/-- `WalletImpl::createTransaction`. -/
def createTransaction (e : Engine) (h : List Event) (w : WalletImpl)
    (dst_addr payment_id : String) (amount mixin_count priority : Nat) :
    Run PendingTransactionImpl :=
  let w1 := clearStatus w
  let c1 := if mixin_count > 0 then [] else [Event.default_mixin]
  let fake_outs_count0 := if mixin_count > 0 then mixin_count else e.default_mixin h
  let fake_outs_count := if fake_outs_count0 = 0 then DEFAULT_MIXIN else fake_outs_count0
  let c2 := c1 ++ [Event.testnet]
  match e.get_account_integrated_address_from_str (e.testnet (h ++ c1)) dst_addr with
  | none =>
    createTransaction_return
      { w1 with m_status := .Status_Error, m_errorString := "Invalid destination address" } c2 []
  | some (addr, has_payment_id, _) =>
    match createTransaction_payment_id has_payment_id payment_id with
    | none =>
      createTransaction_return
        { w1 with
          m_status := .Status_Error
          m_errorString :=
            tr "payment id has invalid format, expected 16 or 64 character hex string: " ++
              payment_id } c2 []
    | some extra =>
      if amount ≤ 0 then
        createTransaction_return
          { w1 with m_status := .Status_Error, m_errorString := "Invalid amount" } c2 []
      else
        let dsts : List DestinationEntry := [{ addr := addr, amount := amount }]
        let c3 := c2 ++
          [Event.create_transactions_2 dsts fake_outs_count 0 priority extra w1.m_trustedDaemon]
        match e.create_transactions_2 (h ++ c2) dsts fake_outs_count 0 priority extra
            w1.m_trustedDaemon with
        | .ret pending_tx => createTransaction_return w1 c3 pending_tx
        | .throw x =>
          createTransaction_return
            { w1 with m_errorString := createTransaction_catch e x, m_status := .Status_Error }
            c3 []

/-- An engine on which every call returns normally: nothing exists on disk, the
daemon answers, the default mixin is 0, and the address strings `"plain"` and
`"integrated"` parse. -/
def quietEngine : Engine :=
  { wallet_exists := fun _ _ => (false, false)
    set_seed_language := fun _ _ => .ret ()
    generate := fun _ _ _ _ _ _ => .ret 7
    load := fun _ _ _ => .ret ()
    store := fun _ => .ret ()
    store_to := fun _ _ _ => .ret ()
    stop := fun _ => .ret ()
    get_wallet_file := fun _ => "wallet"
    rewrite := fun _ _ _ => .ret ()
    refresh := fun _ => .ret ()
    check_connection := fun _ => true
    get_daemon_address := fun _ => "localhost:18081"
    default_mixin := fun _ => 0
    testnet := fun _ => false
    create_transactions_2 := fun _ _ _ _ _ _ _ => .ret [1]
    words_to_bytes := fun s => if s = "seed words" then some (42, "English") else none
    get_account_integrated_address_from_str := fun _ s =>
      if s = "plain" then some ("A", false, "")
      else if s = "integrated" then some ("A", true, "0123456789abcdef")
      else none
    print_money := fun n => toString n }

/-- The invariant of the status fields: `status == Error` exactly when the
error string is non-empty. -/
def StatusInvariant (w : WalletImpl) : Prop :=
  w.m_status = .Status_Error ↔ w.m_errorString ≠ ""

instance (w : WalletImpl) : Decidable (StatusInvariant w) := by
  unfold StatusInvariant; infer_instance

/-- The exceptions an engine can throw from the calls that the controller
makes inside a `try` block or lets propagate. -/
def Engine.throws (e : Engine) (x : Exc) : Prop :=
  (∃ h l, e.set_seed_language h l = .throw x) ∨
  (∃ h p pw k r t, e.generate h p pw k r t = .throw x) ∨
  (∃ h p pw, e.load h p pw = .throw x) ∨
  (∃ h, e.store h = .throw x) ∨
  (∃ h p pw, e.store_to h p pw = .throw x) ∨
  (∃ h, e.stop h = .throw x) ∨
  (∃ h f pw, e.rewrite h f pw = .throw x) ∨
  (∃ h, e.refresh h = .throw x) ∨
  (∃ h d f u p ex t, e.create_transactions_2 h d f u p ex t = .throw x)

/-- The controller after each of the nine operations that go through
`clearStatus`: create, open, recover, close, setPassword, store, refresh,
refreshAsync, createTransaction. -/
def afterOperation (e : Engine) (h : List Event) (w : WalletImpl) (a b c : String)
    (amount mixin_count priority : Nat) : List WalletImpl :=
  [ (create e h w a b c).w, (open_ e h w a b).w, (recover e h w a b).w, (close e h w).w,
    (setPassword e h w a).w, (store e h w a).w, (refresh e h w).w, (refreshAsync w).w,
    (createTransaction e h w a b amount mixin_count priority).w ]

/-- How the status fields can stand after an operation: cleared; an error
with a non-empty text; an error whose text is the `what()` of an exception the
engine threw; or as they stood before. -/
def StatusOutcome (e : Engine) (w w1 : WalletImpl) : Prop :=
  (w1.m_status = .Status_Ok ∧ w1.m_errorString = "") ∨
  (w1.m_status = .Status_Error ∧ w1.m_errorString ≠ "") ∨
  (w1.m_status = .Status_Error ∧ ∃ x, e.throws x ∧ x.std_what = some w1.m_errorString) ∨
  (w1.m_status = w.m_status ∧ w1.m_errorString = w.m_errorString)

/-- Whether an engine call threw. -/
def Outcome.threw {α : Type} : Outcome α → Bool
  | .ret _ => false
  | .throw _ => true

/-- The scheduler's part of the controller: `m_refreshEnabled`,
`m_refreshThreadDone` and `m_refreshIntervalSeconds`. -/
structure RefreshState where
  enabled : Bool
  shuttingDown : Bool
  intervalSeconds : Nat
  deriving DecidableEq

/-- The scheduler fields of a controller. -/
def WalletImpl.refreshState (w : WalletImpl) : RefreshState :=
  { enabled := w.m_refreshEnabled
    shuttingDown := w.m_refreshThreadDone
    intervalSeconds := w.m_refreshIntervalSeconds }

/-- The scheduler operations a caller can invoke. -/
inductive SchedulerOp
  | startRefresh
  | pauseRefresh
  | refreshAsync
  | stopRefresh
  deriving DecidableEq

/-- One scheduler operation on a controller. -/
def SchedulerOp.run : SchedulerOp → WalletImpl → Run Unit
  | .startRefresh, w => Bitmonero.startRefresh w
  | .pauseRefresh, w => Bitmonero.pauseRefresh w
  | .refreshAsync, w => Bitmonero.refreshAsync w
  | .stopRefresh, w => Bitmonero.stopRefresh w

/-- A sequence of scheduler operations, one after the other: the final
controller and all events emitted, in order. -/
def runScheduler : List SchedulerOp → WalletImpl → WalletImpl × List Event
  | [], w => (w, [])
  | op :: ops, w =>
    let r := op.run w
    let rest := runScheduler ops r.w
    (rest.1, r.calls ++ rest.2)

/-- A `cryptonote::transaction` as the callbacks read it: `hash` is
`pod_to_hex(get_transaction_hash(tx))` and `vout` lists the amounts of its
outputs. -/
structure Transaction where
  hash : String
  vout : List Nat
  deriving DecidableEq

/-- `Wallet2CallbackImpl::on_new_block`: it only logs. -/
def on_new_block (_w : WalletImpl) (_height : Nat) : List Event := []

/-- `Wallet2CallbackImpl::on_money_received`: the listener callbacks it issues,
in order.  `tx.vout[out_index]` is read before the listener is looked at; the
result is `none` when `out_index` is not an output of `tx`, where the C++
indexing is undefined. -/
def on_money_received (w : WalletImpl) (_height : Nat) (tx : Transaction) (out_index : Nat) :
    Option (List Event) :=
  let tx_hash := tx.hash
  match tx.vout[out_index]? with
  | none => none
  | some amount =>
    match w.m_listener with
    | some l =>
      some [Event.listener l (Callback.moneyReceived tx_hash amount),
        Event.listener l Callback.updated]
    | none => some []

/-- `Wallet2CallbackImpl::on_money_spent`: the hash is that of `spend_tx`, the
amount that of output `out_index` of `in_tx`. -/
def on_money_spent (w : WalletImpl) (_height : Nat) (in_tx : Transaction) (out_index : Nat)
    (spend_tx : Transaction) : Option (List Event) :=
  let tx_hash := spend_tx.hash
  match in_tx.vout[out_index]? with
  | none => none
  | some amount =>
    match w.m_listener with
    | some l =>
      some [Event.listener l (Callback.moneySpent tx_hash amount),
        Event.listener l Callback.updated]
    | none => some []

/-- `Wallet2CallbackImpl::on_skip_transaction`: empty. -/
def on_skip_transaction (_w : WalletImpl) (_height : Nat) (_tx : Transaction) : List Event := []

/-- The threads of the process: the background refresh thread started by the
constructor, and any number of caller threads. -/
inductive Thread
  | loop
  | caller (n : Nat)
  deriving DecidableEq

/-- Program points inside one call of `WalletImpl::doRefresh`: at the
`lock_guard` on `m_refreshMutex2` (not yet holding it); holding it, at
`m_wallet->refresh()`; holding it, at the listener check; holding it, at the
closing brace where the guard is destroyed. -/
inductive PassPc
  | lock
  | engine
  | listener
  | unlock
  deriving DecidableEq

/-- Whether `m_refreshMutex2` is held at a program point of `doRefresh`. -/
def PassPc.holds : PassPc → Bool
  | .lock => false
  | .engine => true
  | .listener => true
  | .unlock => true

/-- How one step inside `doRefresh` leaves the call: still inside at a program
point, returned, or left by an exception. -/
inductive PassNext
  | inside (p : PassPc)
  | returned
  | escaped (x : Exc)

/-- Program points of a caller thread: outside any operation; in `refresh()`
at `clearStatus()`; in the `doRefresh()` called by `refresh()`; in `refresh()`
at its `return`; in `stopRefresh()` at `m_refreshThread.join()`. -/
inductive CallerPc
  | idle
  | refresh_clear
  | refresh_pass (p : PassPc)
  | refresh_return
  | stop_join
  deriving DecidableEq

/-- Program points of `WalletImpl::refreshThreadFunc`: at the `unique_lock` on
`m_refreshMutex`; at the test of `m_refreshThreadDone`; inside `wait_for`
(`m_refreshMutex` released); at the test of `m_refreshEnabled`; in
`doRefresh()`; at the end of the iteration where the `unique_lock` is
destroyed; after the loop; and ended by an exception that left the thread
function. -/
inductive LoopPc
  | acquire
  | check_done
  | waiting
  | check_enabled
  | pass (p : PassPc)
  | release
  | exited
  | aborted
  deriving DecidableEq

/-- What a thread leaves in the trace of the process: `enter` when it comes
into the body of `doRefresh` (the `lock_guard` is constructed), `leave` when it
goes out of it (the guard is destroyed, at the closing brace or while an
exception unwinds), and every event it emits. -/
inductive Mark
  | enter
  | event (ev : Event)
  | leave
  deriving DecidableEq

/-- The event of a trace entry, if it is one. -/
def Mark.toEvent : Mark → Option Event
  | .event ev => some ev
  | _ => none

/-- The whole process: the controller, the trace of what each thread did, in
the order it happened, the two mutexes (`m_refreshMutex` is only ever locked by
the background thread; `m_refreshMutex2` records its owner) and the program
point of every thread. -/
structure Process where
  w : WalletImpl
  trace : List (Thread × Mark)
  refreshMutex : Bool
  refreshMutex2 : Option Thread
  loopPc : LoopPc
  callerPc : Nat → CallerPc

/-- The history of events of the process, as the engine sees it. -/
def Process.log (s : Process) : List Event :=
  s.trace.filterMap (fun x => x.2.toEvent)

/-- Thread `t` emits the events `evs`. -/
def Process.emit (s : Process) (t : Thread) (evs : List Event) : Process :=
  { s with trace := s.trace ++ evs.map (fun ev => (t, Mark.event ev)) }

/-- The process right after the constructor: the background thread is at the
top of its loop and no caller is inside an operation. -/
def Process.ctor : Process :=
  { w := WalletImpl.ctor
    trace := []
    refreshMutex := false
    refreshMutex2 := none
    loopPc := .acquire
    callerPc := fun _ => .idle }

/-- Moves caller `n` to program point `pc`. -/
def Process.setCallerPc (s : Process) (n : Nat) (pc : CallerPc) : Process :=
  { s with callerPc := fun m => if m = n then pc else s.callerPc m }

/-- One step of thread `t` inside `doRefresh`, at program point `p`.  A
`std::mutex` is taken only when free, otherwise the thread stays where it is;
the `lock_guard` gives it back at the closing brace and when an exception
unwinds through it. -/
def doRefresh_step (e : Engine) (t : Thread) (s : Process) : PassPc → Process × PassNext
  | .lock =>
    match s.refreshMutex2 with
    | none =>
      ({ s with refreshMutex2 := some t, trace := s.trace ++ [(t, Mark.enter)] },
        .inside .engine)
    | some _ => (s, .inside .lock)
  | .engine =>
    match e.refresh s.log with
    | .ret _ => (s.emit t [Event.refresh], .inside .listener)
    | .throw x =>
      match x.std_what with
      | some msg =>
        ({ s with w := { s.w with m_status := .Status_Error, m_errorString := msg } }.emit t
            [Event.refresh],
          .inside .listener)
      | none =>
        ({ s with
            trace := s.trace ++ [(t, Mark.event Event.refresh), (t, Mark.leave)]
            refreshMutex2 := none },
          .escaped x)
  | .listener =>
    match s.w.m_listener with
    | some l => (s.emit t [Event.listener l Callback.refreshed], .inside .unlock)
    | none => (s, .inside .unlock)
  | .unlock =>
    ({ s with refreshMutex2 := none, trace := s.trace ++ [(t, Mark.leave)] }, .returned)

/-- The operations a caller thread can begin. -/
inductive CallerOp
  | refresh
  | refreshAsync
  | startRefresh
  | pauseRefresh
  | stopRefresh
  | setListener (l : Option Nat)
  deriving DecidableEq

/-- What the scheduler can pick next: a step of the background thread, an idle
caller beginning an operation, or a caller inside an operation taking its next
step. -/
inductive Action
  | loop
  | call (n : Nat) (op : CallerOp)
  | caller (n : Nat)
  deriving DecidableEq

/-- The next step of the background thread in `refreshThreadFunc`.  Leaving
`wait_for` is always possible: it returns on a notification, when the interval
has passed, or spuriously. -/
def loop_step (e : Engine) (s : Process) : Process :=
  match s.loopPc with
  | .acquire =>
    if s.refreshMutex then s else { s with refreshMutex := true, loopPc := .check_done }
  | .check_done =>
    if s.w.m_refreshThreadDone then { s with refreshMutex := false, loopPc := .exited }
    else { s with refreshMutex := false, loopPc := .waiting }
  | .waiting =>
    if s.refreshMutex then s else { s with refreshMutex := true, loopPc := .check_enabled }
  | .check_enabled =>
    if s.w.m_refreshEnabled then { s with loopPc := .pass .lock }
    else { s with loopPc := .release }
  | .pass p =>
    let r := doRefresh_step e Thread.loop s p
    match r.2 with
    | .inside q => { r.1 with loopPc := .pass q }
    | .returned => { r.1 with loopPc := .release }
    | .escaped _ => { r.1 with refreshMutex := false, loopPc := .aborted }
  | .release => { s with refreshMutex := false, loopPc := .acquire }
  | .exited => s
  | .aborted => s

/-- An idle caller `n` begins an operation.  `refresh()` is entered; the other
operations have no blocking point before their end and are taken whole, except
that `stopRefresh()` stays at its `join()`. -/
def call_step (s : Process) (n : Nat) : CallerOp → Process
  | .refresh => s.setCallerPc n .refresh_clear
  | .refreshAsync =>
    { s with w := (refreshAsync s.w).w }.emit (Thread.caller n) (refreshAsync s.w).calls
  | .startRefresh =>
    { s with w := (startRefresh s.w).w }.emit (Thread.caller n) (startRefresh s.w).calls
  | .pauseRefresh =>
    { s with w := (pauseRefresh s.w).w }.emit (Thread.caller n) (pauseRefresh s.w).calls
  | .stopRefresh =>
    if !s.w.m_refreshThreadDone then
      ({ s with w := (stopRefresh s.w).w }.emit (Thread.caller n)
        (stopRefresh s.w).calls).setCallerPc n .stop_join
    else s
  | .setListener l => { s with w := setListener s.w l }

/-- The next step of caller `n` inside the operation it is in.  `join()`
returns once the background thread has left its thread function. -/
def caller_step (e : Engine) (s : Process) (n : Nat) : Process :=
  match s.callerPc n with
  | .idle => s
  | .refresh_clear => { s with w := clearStatus s.w }.setCallerPc n (.refresh_pass .lock)
  | .refresh_pass p =>
    let r := doRefresh_step e (Thread.caller n) s p
    match r.2 with
    | .inside q => r.1.setCallerPc n (.refresh_pass q)
    | .returned => r.1.setCallerPc n .refresh_return
    | .escaped _ => r.1.setCallerPc n .idle
  | .refresh_return => s.setCallerPc n .idle
  | .stop_join => if s.loopPc = .exited then s.setCallerPc n .idle else s

/-- One scheduling step.  A thread that cannot move leaves the process as it
is; once an exception has left the background thread the process is over. -/
def step (e : Engine) (s : Process) (a : Action) : Process :=
  if s.loopPc = .aborted then s
  else
    match a with
    | .loop => loop_step e s
    | .call n op => if s.callerPc n = .idle then call_step s n op else s
    | .caller n => caller_step e s n

/-- An interleaving: the scheduling steps taken one after the other. -/
def run (e : Engine) : List Action → Process → Process
  | [], s => s
  | a :: acts, s => run e acts (step e s a)

/-- Whether the background thread is executing the body of `doRefresh`. -/
def LoopPc.inPass : LoopPc → Bool
  | .pass p => p.holds
  | _ => false

/-- Whether a caller thread is executing the body of `doRefresh`. -/
def CallerPc.inPass : CallerPc → Bool
  | .refresh_pass p => p.holds
  | _ => false

/-- Whether a step inside `doRefresh` ends at a point where the mutex is
held. -/
def PassNext.holds : PassNext → Bool
  | .inside p => p.holds
  | .returned => false
  | .escaped _ => false

/-- The events of a synchronization pass: the engine's `refresh` call and the
listener's `refreshed()` notification. -/
def isPassEvent : Event → Bool
  | .refresh => true
  | .listener _ .refreshed => true
  | _ => false

/-- Reading one more entry of a trace.  The state is `none` once the trace has
shown two passes at the same time, and otherwise `some owner` with the thread
whose pass is under way, if any.  A pass may begin only when none is under
way; a pass event and the end of a pass must come from the thread whose pass
is under way. -/
def trace_step (cur : Option (Option Thread)) (x : Thread × Mark) : Option (Option Thread) :=
  match cur with
  | none => none
  | some owner =>
    match x.2 with
    | .enter => if owner = none then some (some x.1) else none
    | .leave => if owner = some x.1 then some none else none
    | .event ev =>
      if isPassEvent ev then (if owner = some x.1 then some owner else none) else some owner

/-- Reading a whole trace from the start. -/
def passOwner (tr : List (Thread × Mark)) : Option (Option Thread) :=
  tr.foldl trace_step (some none)

/-- A trace is serialized when at every moment of it at most one pass is under
way and every engine `refresh` call and every `refreshed()` notification
belongs to that pass. -/
def serialized (tr : List (Thread × Mark)) : Bool :=
  (passOwner tr).isSome

/-- The lock discipline: `m_refreshMutex2` is owned by a thread exactly when
that thread is executing the body of `doRefresh`. -/
def LockInvariant (s : Process) : Prop :=
  (s.refreshMutex2 = some Thread.loop ↔ s.loopPc.inPass = true) ∧
  ∀ n, s.refreshMutex2 = some (Thread.caller n) ↔ (s.callerPc n).inPass = true

/-- The trace agrees with the mutex: read from the start it never shows two
passes at the same time, and the pass under way at its end is that of the
owner of `m_refreshMutex2`. -/
def TraceInvariant (s : Process) : Prop :=
  passOwner s.trace = some s.refreshMutex2

/-! ## Theorems -/

/-- The refusing branch of `create`, as one equation. -/
theorem create_of_exists (e : Engine) (h : List Event) (w : WalletImpl)
    (path password language : String)
    (hex : (e.wallet_exists h path).1 = true ∨ (e.wallet_exists h path).2 = true) :
    create e h w path password language =
      ⟨{ clearStatus w with
          m_errorString := "attempting to generate or restore wallet, but specified file(s) exist.  Exiting to not risk overwriting."
          m_status := .Status_Error },
        [Event.wallet_exists path], .returned false⟩ := by
  have hb : ((e.wallet_exists h path).1 || (e.wallet_exists h path).2) = true := by
    rcases hex with h1 | h1 <;> simp [h1]
  simp only [create, hb, if_true]

/-- C1: when the existence check reports the keys file or the wallet file,
`create` returns false with status Error and a non-empty error string; its only
engine call is the existence check, so neither `set_seed_language` nor
`generate` is called, and the stored password is unchanged. -/
theorem create_existing_refused (e : Engine) (h : List Event) (w : WalletImpl)
    (path password language : String)
    (hex : (e.wallet_exists h path).1 = true ∨ (e.wallet_exists h path).2 = true) :
    (create e h w path password language).res = .returned false ∧
    (create e h w path password language).w.m_status = .Status_Error ∧
    (create e h w path password language).w.m_errorString ≠ "" ∧
    (create e h w path password language).calls = [Event.wallet_exists path] ∧
    (∀ ev ∈ (create e h w path password language).calls,
      (∀ l, ev ≠ Event.set_seed_language l) ∧
      (∀ p pw k r t, ev ≠ Event.generate p pw k r t)) ∧
    (create e h w path password language).w.m_password = w.m_password := by
  rw [create_of_exists e h w path password language hex]
  refine ⟨rfl, rfl, by simp, rfl, ?_, rfl⟩
  intro ev hev
  simp only [List.mem_singleton] at hev
  subst hev
  exact ⟨fun _ hc => (nomatch hc), fun _ _ _ _ _ hc => (nomatch hc)⟩

/-- C1 at a concrete input: the keys file exists at `"w1"`. -/
theorem create_existing_refused_witness :
    (create { quietEngine with wallet_exists := fun _ _ => (true, false) } []
        { WalletImpl.ctor with m_password := "old" } "w1" "pw" "English").res = .returned false ∧
    (create { quietEngine with wallet_exists := fun _ _ => (true, false) } []
        { WalletImpl.ctor with m_password := "old" } "w1" "pw" "English").w.m_password = "old" :=
  have t := create_existing_refused { quietEngine with wallet_exists := fun _ _ => (true, false) } []
    { WalletImpl.ctor with m_password := "old" } "w1" "pw" "English" (Or.inl rfl)
  ⟨t.1, t.2.2.2.2.2⟩

/-- A string with a non-empty left part is non-empty. -/
theorem append_ne_empty (a b : String) (h : a ≠ "") : a ++ b ≠ "" := by
  intro hc
  apply h
  have h1 : (a ++ b).data = [] := by rw [hc]
  rw [String.data_append] at h1
  exact String.ext (List.append_eq_nil.mp h1).1

/-- Every handler of `createTransaction` but the `tx_sum_overflow` one sets a
non-empty text; that one sets the exception's `what()`. -/
theorem createTransaction_catch_cases (e : Engine) (x : Exc) :
    createTransaction_catch e x ≠ "" ∨
      (∃ what, x = .tx_sum_overflow what ∧ createTransaction_catch e x = what) := by
  cases x <;> simp only [createTransaction_catch, tr]
  case tx_sum_overflow what => exact Or.inr ⟨what, rfl, rfl⟩
  all_goals first
    | exact Or.inl (by decide)
    | exact Or.inl (append_ne_empty _ _ (by decide))
    | exact Or.inl (append_ne_empty _ _ (append_ne_empty _ _ (by decide)))
    | exact Or.inl (append_ne_empty _ _ (append_ne_empty _ _ (append_ne_empty _ _ (by decide))))
    | exact Or.inl (append_ne_empty _ _ (append_ne_empty _ _ (append_ne_empty _ _
        (append_ne_empty _ _ (by decide)))))
    | exact Or.inl (append_ne_empty _ _ (append_ne_empty _ _ (append_ne_empty _ _
        (append_ne_empty _ _ (append_ne_empty _ _ (append_ne_empty _ _
        (append_ne_empty _ _ (append_ne_empty _ _ (by decide)))))))))

/-- `create` leaves the status fields in one of the four listed shapes. -/
theorem create_status (e : Engine) (h : List Event) (w : WalletImpl)
    (path password language : String) :
    StatusOutcome e w (create e h w path password language).w := by
  unfold create
  simp only
  split
  · exact Or.inr (Or.inl ⟨rfl, by simp⟩)
  · split
    · exact Or.inl ⟨rfl, rfl⟩
    · split
      · exact Or.inl ⟨rfl, rfl⟩
      · rename_i x hx
        split
        · rename_i msg hmsg
          exact Or.inr (Or.inr (Or.inl ⟨rfl, x, Or.inr (Or.inl ⟨_, _, _, _, _, _, hx⟩), hmsg⟩))
        · exact Or.inl ⟨rfl, rfl⟩

/-- `open` leaves the status fields in one of the four listed shapes. -/
theorem open_status (e : Engine) (h : List Event) (w : WalletImpl) (path password : String) :
    StatusOutcome e w (open_ e h w path password).w := by
  unfold open_
  simp only
  split
  · exact Or.inl ⟨rfl, rfl⟩
  · rename_i x hx
    split
    · rename_i msg hmsg
      exact Or.inr (Or.inr (Or.inl ⟨rfl, x, Or.inr (Or.inr (Or.inl ⟨_, _, _, hx⟩)), hmsg⟩))
    · exact Or.inl ⟨rfl, rfl⟩

/-- `recover` leaves the status fields in one of the four listed shapes. -/
theorem recover_status (e : Engine) (h : List Event) (w : WalletImpl) (path seed : String) :
    StatusOutcome e w (recover e h w path seed).w := by
  unfold recover
  simp only
  split
  · exact Or.inr (Or.inl ⟨rfl, by simp⟩)
  · split
    · exact Or.inr (Or.inl ⟨rfl, by simp⟩)
    · split
      · rename_i x hx
        split
        · rename_i msg hmsg
          exact Or.inr (Or.inr (Or.inl ⟨rfl, x, Or.inl ⟨_, _, hx⟩, hmsg⟩))
        · exact Or.inl ⟨rfl, rfl⟩
      · split
        · rename_i x hx
          split
          · rename_i msg hmsg
            exact Or.inr (Or.inr (Or.inl ⟨rfl, x, Or.inr (Or.inl ⟨_, _, _, _, _, _, hx⟩), hmsg⟩))
          · exact Or.inl ⟨rfl, rfl⟩
        · exact Or.inl ⟨rfl, rfl⟩

/-- The handler of `close` leaves the status fields in one of the four listed
shapes, for an exception the engine threw. -/
theorem close_catch_status (e : Engine) (w : WalletImpl) (calls : List Event) (x : Exc)
    (hx : e.throws x) : StatusOutcome e w (close_catch w calls x).w := by
  unfold close_catch
  split
  · rename_i msg hmsg
    exact Or.inr (Or.inr (Or.inl ⟨rfl, x, hx, hmsg⟩))
  · exact Or.inr (Or.inr (Or.inr ⟨rfl, rfl⟩))

/-- `close` leaves the status fields in one of the four listed shapes. -/
theorem close_status (e : Engine) (h : List Event) (w : WalletImpl) :
    StatusOutcome e w (close e h w).w := by
  have hstop : ∀ calls, StatusOutcome e w (close_stop e h w calls).w := by
    intro calls
    unfold close_stop
    split
    · exact Or.inl ⟨rfl, rfl⟩
    · rename_i x hx
      exact close_catch_status e w _ x
        (Or.inr (Or.inr (Or.inr (Or.inr (Or.inr (Or.inl ⟨_, hx⟩))))))
  unfold close
  split
  · split
    · exact hstop _
    · rename_i x hx
      exact close_catch_status e w _ x (Or.inr (Or.inr (Or.inr (Or.inl ⟨_, hx⟩))))
  · exact hstop _

/-- `setPassword` leaves the status fields in one of the four listed shapes. -/
theorem setPassword_status (e : Engine) (h : List Event) (w : WalletImpl) (password : String) :
    StatusOutcome e w (setPassword e h w password).w := by
  unfold setPassword
  simp only
  split
  · exact Or.inl ⟨rfl, rfl⟩
  · rename_i x hx
    split
    · rename_i msg hmsg
      exact Or.inr (Or.inr (Or.inl ⟨rfl, x,
        Or.inr (Or.inr (Or.inr (Or.inr (Or.inr (Or.inr (Or.inl ⟨_, _, _, hx⟩)))))), hmsg⟩))
    · exact Or.inl ⟨rfl, rfl⟩

/-- `store` leaves the status fields in one of the four listed shapes. -/
theorem store_status (e : Engine) (h : List Event) (w : WalletImpl) (path : String) :
    StatusOutcome e w (store e h w path).w := by
  unfold store
  simp only
  split
  · exact Or.inl ⟨rfl, rfl⟩
  · rename_i x hx
    have hthrows : e.throws x := by
      by_cases hp : path = ""
      · rw [if_pos hp] at hx
        exact Or.inr (Or.inr (Or.inr (Or.inl ⟨_, hx⟩)))
      · rw [if_neg hp] at hx
        exact Or.inr (Or.inr (Or.inr (Or.inr (Or.inl ⟨_, _, _, hx⟩))))
    split
    · rename_i msg hmsg
      exact Or.inr (Or.inr (Or.inl ⟨rfl, x, hthrows, hmsg⟩))
    · exact Or.inl ⟨rfl, rfl⟩

/-- `doRefresh` keeps the status fields or sets an error whose text is the
`what()` of the exception thrown by the engine. -/
theorem doRefresh_status (e : Engine) (h : List Event) (w : WalletImpl) :
    StatusOutcome e w (doRefresh e h w).w := by
  unfold doRefresh
  split
  · unfold doRefresh_listener
    split <;> exact Or.inr (Or.inr (Or.inr ⟨rfl, rfl⟩))
  · rename_i x hx
    split
    · rename_i msg hmsg
      unfold doRefresh_listener
      split <;>
        exact Or.inr (Or.inr (Or.inl ⟨rfl, x,
          Or.inr (Or.inr (Or.inr (Or.inr (Or.inr (Or.inr (Or.inr (Or.inl ⟨_, hx⟩))))))), hmsg⟩))
    · exact Or.inr (Or.inr (Or.inr ⟨rfl, rfl⟩))

/-- `refresh` leaves the status fields in one of the four listed shapes. -/
theorem refresh_status (e : Engine) (h : List Event) (w : WalletImpl) :
    StatusOutcome e w (refresh e h w).w := by
  have hd := doRefresh_status e h (clearStatus w)
  have hw : (refresh e h w).w = (doRefresh e h (clearStatus w)).w := by
    unfold refresh
    simp only
    split <;> rfl
  rw [hw]
  rcases hd with hd | hd | hd | hd
  · exact Or.inl hd
  · exact Or.inr (Or.inl hd)
  · exact Or.inr (Or.inr (Or.inl hd))
  · exact Or.inl ⟨hd.1, hd.2⟩

/-- `createTransaction` leaves the status fields in one of the four listed
shapes. -/
theorem createTransaction_status (e : Engine) (h : List Event) (w : WalletImpl)
    (dst_addr payment_id : String) (amount mixin_count priority : Nat) :
    StatusOutcome e w (createTransaction e h w dst_addr payment_id amount mixin_count priority).w := by
  unfold createTransaction
  simp only
  split
  · exact Or.inr (Or.inl ⟨rfl, by simp [createTransaction_return]⟩)
  · split
    · exact Or.inr (Or.inl ⟨rfl, append_ne_empty _ _ (by decide)⟩)
    · split
      · exact Or.inr (Or.inl ⟨rfl, by simp [createTransaction_return]⟩)
      · split
        · exact Or.inl ⟨rfl, rfl⟩
        · rename_i x hx
          rcases createTransaction_catch_cases e x with hne | ⟨what, rfl, hwhat⟩
          · exact Or.inr (Or.inl ⟨rfl, hne⟩)
          · exact Or.inr (Or.inr (Or.inl ⟨rfl, _,
              Or.inr (Or.inr (Or.inr (Or.inr (Or.inr (Or.inr (Or.inr (Or.inr
                ⟨_, _, _, _, _, _, _, hx⟩))))))), rfl⟩))

/-- C2, as the code has it: the invariant holds after construction; each of
create, open, recover, close, setPassword, store, refresh, refreshAsync and
createTransaction preserves "error string non-empty implies status Error" for
every engine, and preserves the whole equivalence when no exception the engine
throws has an empty `what()`; after connectToDaemon, status Error implies a
non-empty error string. -/
theorem status_invariant_amended (e : Engine) (h : List Event) (w : WalletImpl) (a b c : String)
    (amount mixin_count priority : Nat)
    (hw : w.m_errorString ≠ "" → w.m_status = .Status_Error) :
    StatusInvariant WalletImpl.ctor ∧
    (∀ w1 ∈ afterOperation e h w a b c amount mixin_count priority,
      (w1.m_errorString ≠ "" → w1.m_status = .Status_Error) ∧
      ((∀ x, e.throws x → x.std_what ≠ some "") → StatusInvariant w → StatusInvariant w1)) ∧
    ((connectToDaemon e h w).w.m_status = .Status_Error →
      (connectToDaemon e h w).w.m_errorString ≠ "") := by
  have key : ∀ w1, StatusOutcome e w w1 →
      (w1.m_errorString ≠ "" → w1.m_status = .Status_Error) ∧
      ((∀ x, e.throws x → x.std_what ≠ some "") → StatusInvariant w → StatusInvariant w1) := by
    intro w1 ho
    rcases ho with ⟨hs, he⟩ | ⟨hs, he⟩ | ⟨hs, x, hx, hwhat⟩ | ⟨hs, he⟩
    · refine ⟨fun hne => absurd he hne, fun _ _ => ?_⟩
      unfold StatusInvariant
      rw [hs, he]
      decide
    · exact ⟨fun _ => hs, fun _ _ => ⟨fun _ => he, fun _ => hs⟩⟩
    · refine ⟨fun _ => hs, fun hne _ => ⟨fun _ hempty => ?_, fun _ => hs⟩⟩
      rw [hempty] at hwhat
      exact hne x hx hwhat
    · refine ⟨fun hne => ?_, fun _ hinv => ?_⟩
      · rw [hs]
        exact hw (by rw [← he]; exact hne)
      · unfold StatusInvariant at hinv ⊢
        rw [hs, he]
        exact hinv
  refine ⟨by decide, ?_, ?_⟩
  · intro w1 hmem
    simp only [afterOperation, List.mem_cons, List.mem_singleton, List.not_mem_nil, or_false]
      at hmem
    rcases hmem with rfl | rfl | rfl | rfl | rfl | rfl | rfl | rfl | rfl
    · exact key _ (create_status e h w a b c)
    · exact key _ (open_status e h w a b)
    · exact key _ (recover_status e h w a b)
    · exact key _ (close_status e h w)
    · exact key _ (setPassword_status e h w a)
    · exact key _ (store_status e h w a)
    · exact key _ (refresh_status e h w)
    · exact key _ (Or.inl ⟨rfl, rfl⟩)
    · exact key _ (createTransaction_status e h w a b amount mixin_count priority)
  · unfold connectToDaemon
    simp only
    split
    · intro _
      exact append_ne_empty _ _ (by decide)
    · rename_i hres
      intro hs
      have hres1 : e.check_connection h = true := by simpa using hres
      simp [hres1] at hs

/-- C2 amended, at a concrete input: an engine whose `load` throws
`"bad password"`, starting from the constructed controller. -/
theorem status_invariant_amended_witness :
    StatusInvariant WalletImpl.ctor ∧
    ∀ w1 ∈ afterOperation
        { quietEngine with load := fun _ _ _ => .throw (.std_exception "bad password") } []
        WalletImpl.ctor "w" "pw" "English" 5 0 1, StatusInvariant w1 :=
  have t := status_invariant_amended
    { quietEngine with load := fun _ _ _ => .throw (.std_exception "bad password") } []
    WalletImpl.ctor "w" "pw" "English" 5 0 1 (fun hne => absurd rfl hne)
  ⟨t.1, fun w1 hmem => (t.2.1 w1 hmem).2
    (by
      intro x hx
      simp only [Engine.throws, quietEngine, exists_const, exists_false, false_or, or_false,
        Outcome.throw.injEq, reduceCtorEq] at hx
      subst hx
      decide)
    t.1⟩

/-- C2 fails as stated.  `open` on an engine whose `load` throws an exception
with an empty `what()` leaves status Error with an empty error string; and
`connectToDaemon`, succeeding after a failed `open`, leaves status Ok with the
old error string. -/
theorem status_invariant_counterexample :
    (StatusInvariant WalletImpl.ctor ∧
      ¬ StatusInvariant
        (open_ { quietEngine with load := fun _ _ _ => .throw (.std_exception "") } []
          WalletImpl.ctor "w" "pw").w) ∧
    (StatusInvariant
        (open_ { quietEngine with load := fun _ _ _ => .throw (.std_exception "bad password") } []
          WalletImpl.ctor "w" "pw").w ∧
      ¬ StatusInvariant
        (connectToDaemon quietEngine [Event.load "w" "pw"]
          (open_ { quietEngine with load := fun _ _ _ => .throw (.std_exception "bad password") }
            [] WalletImpl.ctor "w" "pw").w).w) := by
  decide

/-- C3, as the code has it: `close` calls `store` exactly when the prior status
is Ok, and first; it then attempts `stop` unless `store` was attempted and
threw; it returns true exactly when no attempted engine call threw; and when it
returns true the status is Ok with an empty error string. -/
theorem close_amended (e : Engine) (h : List Event) (w : WalletImpl) :
    (Event.store ∈ (close e h w).calls ↔ w.m_status = .Status_Ok) ∧
    (close e h w).calls =
      (if w.m_status = .Status_Ok then [Event.store] else []) ++
      (if w.m_status = .Status_Ok ∧ (e.store h).threw = true then [] else [Event.stop]) ∧
    ((close e h w).res = .returned true ↔
      (w.m_status = .Status_Ok → (e.store h).threw = false) ∧
      (¬ (w.m_status = .Status_Ok ∧ (e.store h).threw = true) →
        (e.stop (h ++ if w.m_status = .Status_Ok then [Event.store] else [])).threw = false)) ∧
    ((close e h w).res = .returned true →
      (close e h w).w.m_status = .Status_Ok ∧ (close e h w).w.m_errorString = "") := by
  by_cases hs : w.m_status = .Status_Ok
  · cases hst : e.store h with
    | throw x =>
      cases hx : x.std_what <;>
        simp [close, close_catch, status, hs, hst, hx, Outcome.threw]
    | ret u =>
      cases hsp : e.stop (h ++ [Event.store]) with
      | ret v =>
        simp [close, close_stop, status, hs, hst, hsp, Outcome.threw, clearStatus]
      | throw x =>
        cases hx : x.std_what <;>
          simp [close, close_stop, close_catch, status, hs, hst, hsp, hx, Outcome.threw]
  · cases hsp : e.stop h with
    | ret v =>
      simp [close, close_stop, status, hs, hsp, Outcome.threw, clearStatus]
    | throw x =>
      cases hx : x.std_what <;>
        simp [close, close_stop, close_catch, status, hs, hsp, hx, Outcome.threw]

/-- C3 fails as stated: with prior status Ok and an engine whose `store`
throws, `close` calls `store` only; `stop` is not attempted. -/
theorem close_stop_counterexample :
    WalletImpl.ctor.m_status = .Status_Ok ∧
    (close { quietEngine with store := fun _ => .throw (.std_exception "disk full") } []
      WalletImpl.ctor).calls = [Event.store] ∧
    Event.stop ∉
      (close { quietEngine with store := fun _ => .throw (.std_exception "disk full") } []
        WalletImpl.ctor).calls := by
  decide

/-- C4, as the code has it: create, open, recover, setPassword, store, refresh
and createTransaction start with `clearStatus`, so the whole run (engine calls,
result, final controller) is that of the cleared controller and does not depend
on the prior status and error string. -/
theorem clear_first_amended (e : Engine) (h : List Event) (w : WalletImpl) (st : Status)
    (err : String) (a b c : String) (amount mixin_count priority : Nat) :
    (create e h w a b c = create e h (clearStatus w) a b c ∧
      create e h { w with m_status := st, m_errorString := err } a b c = create e h w a b c) ∧
    (open_ e h w a b = open_ e h (clearStatus w) a b ∧
      open_ e h { w with m_status := st, m_errorString := err } a b = open_ e h w a b) ∧
    (recover e h w a b = recover e h (clearStatus w) a b ∧
      recover e h { w with m_status := st, m_errorString := err } a b = recover e h w a b) ∧
    (setPassword e h w a = setPassword e h (clearStatus w) a ∧
      setPassword e h { w with m_status := st, m_errorString := err } a = setPassword e h w a) ∧
    (store e h w a = store e h (clearStatus w) a ∧
      store e h { w with m_status := st, m_errorString := err } a = store e h w a) ∧
    (refresh e h w = refresh e h (clearStatus w) ∧
      refresh e h { w with m_status := st, m_errorString := err } = refresh e h w) ∧
    (createTransaction e h w a b amount mixin_count priority =
        createTransaction e h (clearStatus w) a b amount mixin_count priority ∧
      createTransaction e h { w with m_status := st, m_errorString := err } a b amount
        mixin_count priority = createTransaction e h w a b amount mixin_count priority) :=
  ⟨⟨rfl, rfl⟩, ⟨rfl, rfl⟩, ⟨rfl, rfl⟩, ⟨rfl, rfl⟩, ⟨rfl, rfl⟩, ⟨rfl, rfl⟩, ⟨rfl, rfl⟩⟩

/-- C4 fails as stated for `close`: two controllers that differ only in status
and error string make different engine calls, because `close` reads the prior
status before it clears it. -/
theorem clear_first_counterexample :
    (close quietEngine [] WalletImpl.ctor).calls = [Event.store, Event.stop] ∧
    (close quietEngine []
      { WalletImpl.ctor with m_status := .Status_Error, m_errorString := "x" }).calls =
        [Event.stop] ∧
    (close quietEngine [] WalletImpl.ctor).calls ≠
      (close quietEngine []
        { WalletImpl.ctor with m_status := .Status_Error, m_errorString := "x" }).calls := by
  decide

/-- The events `createTransaction` emits before the engine's transfer
construction hold no transfer construction. -/
theorem not_mem_before_transfer (mixin_count : Nat) (dsts : List DestinationEntry)
    (f u p : Nat) (ex : List ExtraNonce) (t : Bool) :
    Event.create_transactions_2 dsts f u p ex t ∉
      (if mixin_count > 0 then [] else [Event.default_mixin]) ++ [Event.testnet] := by
  split <;> simp

/-- C5, as the code has it: `createTransaction` always returns, and the
transaction it returns carries the controller's status and error string;
when the engine's transfer construction threw, the status is Error, the built
transfer set is empty and the error string is the text set by the matching
handler, which is non-empty unless the exception is a `tx_sum_overflow`, whose
`what()` is copied as it is. -/
theorem createTransaction_amended (e : Engine) (h : List Event) (w : WalletImpl)
    (dst_addr payment_id : String) (amount mixin_count priority : Nat) :
    (∃ tx, (createTransaction e h w dst_addr payment_id amount mixin_count priority).res =
        .returned tx ∧
      tx.m_status =
        (createTransaction e h w dst_addr payment_id amount mixin_count priority).w.m_status ∧
      tx.m_errorString =
        (createTransaction e h w dst_addr payment_id amount mixin_count priority).w.m_errorString ∧
      ∀ x dsts f u p ex t,
        Event.create_transactions_2 dsts f u p ex t ∈
          (createTransaction e h w dst_addr payment_id amount mixin_count priority).calls →
        e.create_transactions_2
          (h ++ (createTransaction e h w dst_addr payment_id amount mixin_count
            priority).calls.dropLast) dsts f u p ex t = .throw x →
        tx.m_status = .Status_Error ∧ tx.m_pending_tx = [] ∧
        tx.m_errorString = createTransaction_catch e x ∧
        ((∀ what, x ≠ .tx_sum_overflow what) → tx.m_errorString ≠ "")) := by
  unfold createTransaction
  simp only
  split
  · refine ⟨_, rfl, rfl, rfl, ?_⟩
    intro x dsts f u p ex t hmem
    exact absurd hmem (not_mem_before_transfer _ _ _ _ _ _ _)
  · split
    · refine ⟨_, rfl, rfl, rfl, ?_⟩
      intro x dsts f u p ex t hmem
      exact absurd hmem (not_mem_before_transfer _ _ _ _ _ _ _)
    · split
      · refine ⟨_, rfl, rfl, rfl, ?_⟩
        intro x dsts f u p ex t hmem
        exact absurd hmem (not_mem_before_transfer _ _ _ _ _ _ _)
      · split
        · rename_i ptx hret
          refine ⟨_, rfl, rfl, rfl, ?_⟩
          intro x dsts f u p ex t hmem hthrow
          simp only [createTransaction_return, List.dropLast_concat] at hmem hthrow
          rw [List.mem_append] at hmem
          rcases hmem with hmem | hmem
          · exact absurd hmem (not_mem_before_transfer _ _ _ _ _ _ _)
          · simp only [List.mem_singleton, Event.create_transactions_2.injEq] at hmem
            obtain ⟨rfl, rfl, rfl, rfl, rfl, rfl⟩ := hmem
            rw [hret] at hthrow
            cases hthrow
        · rename_i x0 hx0
          refine ⟨_, rfl, rfl, rfl, ?_⟩
          intro x dsts f u p ex t hmem hthrow
          simp only [createTransaction_return, List.dropLast_concat] at hmem hthrow
          rw [List.mem_append] at hmem
          rcases hmem with hmem | hmem
          · exact absurd hmem (not_mem_before_transfer _ _ _ _ _ _ _)
          · simp only [List.mem_singleton, Event.create_transactions_2.injEq] at hmem
            obtain ⟨rfl, rfl, rfl, rfl, rfl, rfl⟩ := hmem
            rw [hx0] at hthrow
            cases hthrow
            refine ⟨rfl, rfl, rfl, ?_⟩
            intro hnot
            rcases createTransaction_catch_cases e x0 with hne | ⟨what, hw, _⟩
            · exact hne
            · exact absurd hw (hnot what)

/-- C5 amended, at a concrete input: the engine's transfer construction throws
`daemon_busy`; the returned transaction has status Error, no built transfer and
a non-empty error string. -/
theorem createTransaction_amended_witness :
    ∃ tx,
      (createTransaction
        { quietEngine with
          create_transactions_2 := fun _ _ _ _ _ _ _ => .throw (.daemon_busy "busy") }
        [] WalletImpl.ctor "plain" "" 5 0 1).res = .returned tx ∧
      tx.m_status = .Status_Error ∧ tx.m_pending_tx = [] ∧ tx.m_errorString ≠ "" := by
  obtain ⟨tx, hres, _, _, hall⟩ := createTransaction_amended
    { quietEngine with
      create_transactions_2 := fun _ _ _ _ _ _ _ => .throw (.daemon_busy "busy") }
    [] WalletImpl.ctor "plain" "" 5 0 1
  have t := hall (.daemon_busy "busy") [{ addr := "A", amount := 5 }] 4 0 1 [] false
    (by decide) rfl
  exact ⟨tx, hres, t.1, t.2.1, t.2.2.2 (fun _ hc => nomatch hc)⟩

/-- C5 fails as stated: when the engine's transfer construction throws a
`tx_sum_overflow` whose `what()` is empty, the returned transaction has status
Error and an empty error string. -/
theorem createTransaction_counterexample :
    (createTransaction
      { quietEngine with
        create_transactions_2 := fun _ _ _ _ _ _ _ => .throw (.tx_sum_overflow "") }
      [] WalletImpl.ctor "plain" "" 5 0 1).calls =
      [Event.default_mixin, Event.testnet,
        Event.create_transactions_2 [{ addr := "A", amount := 5 }] 4 0 1 [] false] ∧
    (createTransaction
      { quietEngine with
        create_transactions_2 := fun _ _ _ _ _ _ _ => .throw (.tx_sum_overflow "") }
      [] WalletImpl.ctor "plain" "" 5 0 1).res =
      .returned { m_status := .Status_Error, m_errorString := "", m_pending_tx := [] } := by
  decide

/-- The payment-id block on a plain address and a non-empty payment id: long
first, then short, else failure. -/
theorem createTransaction_payment_id_plain (payment_id : String) (hne : payment_id ≠ "") :
    createTransaction_payment_id false payment_id =
      if isHexString 64 payment_id then some [ExtraNonce.payment_id payment_id]
      else if isHexString 16 payment_id then some [ExtraNonce.encrypted_payment_id payment_id]
      else none := by
  unfold createTransaction_payment_id parse_long_payment_id parse_short_payment_id
    add_extra_nonce_to_tx_extra set_payment_id_to_tx_extra_nonce
    set_encrypted_payment_id_to_tx_extra_nonce
  by_cases h64 : isHexString 64 payment_id = true
  · simp [hne, h64]
  · by_cases h16 : isHexString 16 payment_id = true
    · simp [hne, h64, h16]
    · simp [hne, h64, h16]

/-- The extra blob left by the payment-id block never holds more than one
nonce. -/
theorem createTransaction_payment_id_length (has_payment_id : Bool) (payment_id : String)
    (extra : List ExtraNonce)
    (hex : createTransaction_payment_id has_payment_id payment_id = some extra) :
    extra.length ≤ 1 := by
  unfold createTransaction_payment_id parse_long_payment_id parse_short_payment_id
    add_extra_nonce_to_tx_extra at hex
  simp only at hex
  split at hex
  · split at hex
    · split at hex
      · cases hex
        simp
      · cases hex
    · split at hex
      · split at hex
        · cases hex
          simp
        · cases hex
      · cases hex
  · cases hex
    simp

/-- What `createTransaction` does once the address has parsed and the
payment-id block has left an extra blob. -/
theorem createTransaction_of_extra (e : Engine) (h : List Event) (w : WalletImpl)
    (dst_addr payment_id : String) (amount mixin_count priority : Nat)
    (addr short : String) (has_payment_id : Bool) (extra : List ExtraNonce)
    (haddr : e.get_account_integrated_address_from_str
      (e.testnet (h ++ if mixin_count > 0 then [] else [Event.default_mixin])) dst_addr =
        some (addr, has_payment_id, short))
    (hextra : createTransaction_payment_id has_payment_id payment_id = some extra)
    (hpos : 0 < amount) :
    ∃ f, (createTransaction e h w dst_addr payment_id amount mixin_count priority).calls =
      ((if mixin_count > 0 then [] else [Event.default_mixin]) ++ [Event.testnet]) ++
        [Event.create_transactions_2 [{ addr := addr, amount := amount }] f 0 priority extra
          w.m_trustedDaemon] := by
  have hamount : ¬ amount ≤ 0 := by omega
  unfold createTransaction
  simp only [haddr, hextra, hamount, if_false]
  split <;> exact ⟨_, rfl⟩

/-- Every transfer construction that `createTransaction` asks of the engine
comes after a parsed address, a resolved payment id and a positive amount, and
carries exactly the arguments computed from them. -/
theorem createTransaction_call (e : Engine) (h : List Event) (w : WalletImpl)
    (dst_addr payment_id : String) (amount mixin_count priority : Nat)
    (dsts : List DestinationEntry) (f u p : Nat) (ex : List ExtraNonce) (t : Bool)
    (hmem : Event.create_transactions_2 dsts f u p ex t ∈
      (createTransaction e h w dst_addr payment_id amount mixin_count priority).calls) :
    ∃ addr has_payment_id short,
      e.get_account_integrated_address_from_str
        (e.testnet (h ++ if mixin_count > 0 then [] else [Event.default_mixin])) dst_addr =
          some (addr, has_payment_id, short) ∧
      createTransaction_payment_id has_payment_id payment_id = some ex ∧
      0 < amount ∧ dsts = [{ addr := addr, amount := amount }] ∧
      f = (if (if mixin_count > 0 then mixin_count else e.default_mixin h) = 0 then DEFAULT_MIXIN
            else if mixin_count > 0 then mixin_count else e.default_mixin h) ∧
      u = 0 ∧ p = priority ∧ t = w.m_trustedDaemon := by
  unfold createTransaction at hmem
  simp only at hmem
  split at hmem
  · exact absurd hmem (not_mem_before_transfer _ _ _ _ _ _ _)
  · rename_i addr hp short haddr
    split at hmem
    · exact absurd hmem (not_mem_before_transfer _ _ _ _ _ _ _)
    · rename_i extra hextra
      split at hmem
      · exact absurd hmem (not_mem_before_transfer _ _ _ _ _ _ _)
      · rename_i hamount
        have hcall : Event.create_transactions_2 dsts f u p ex t ∈
            ((if mixin_count > 0 then [] else [Event.default_mixin]) ++ [Event.testnet]) ++
              [Event.create_transactions_2 [{ addr := addr, amount := amount }]
                (if (if mixin_count > 0 then mixin_count else e.default_mixin h) = 0
                  then DEFAULT_MIXIN
                  else if mixin_count > 0 then mixin_count else e.default_mixin h)
                0 priority extra (clearStatus w).m_trustedDaemon] := by
          split at hmem <;> exact hmem
        rw [List.mem_append] at hcall
        rcases hcall with hcall | hcall
        · exact absurd hcall (not_mem_before_transfer _ _ _ _ _ _ _)
        · simp only [List.mem_singleton, Event.create_transactions_2.injEq] at hcall
          obtain ⟨rfl, rfl, rfl, rfl, rfl, rfl⟩ := hcall
          exact ⟨addr, hp, short, haddr, hextra, by omega, rfl, rfl, rfl, rfl, rfl⟩

/-- C6, as the code has it: for a destination that parses as a plain address
and a non-empty payment id, a 64-hex-character id leaves the cleartext long-id
nonce as the whole extra blob, a 16-hex-character id leaves the encrypted
short-id nonce as the whole extra blob, and that blob is what the engine gets
once the amount is positive; any other id ends the call with status Error and
the message "payment id has invalid format, expected 16 or 64 character hex
string: " followed by the id, without a transfer construction. -/
theorem payment_id_amended (e : Engine) (h : List Event) (w : WalletImpl)
    (dst_addr payment_id : String) (amount mixin_count priority : Nat) (addr short : String)
    (hplain : e.get_account_integrated_address_from_str
      (e.testnet (h ++ if mixin_count > 0 then [] else [Event.default_mixin])) dst_addr =
        some (addr, false, short))
    (hne : payment_id ≠ "") :
    (isHexString 64 payment_id = true →
      createTransaction_payment_id false payment_id = some [ExtraNonce.payment_id payment_id] ∧
      (∀ dsts f u p ex t, Event.create_transactions_2 dsts f u p ex t ∈
          (createTransaction e h w dst_addr payment_id amount mixin_count priority).calls →
        ex = [ExtraNonce.payment_id payment_id]) ∧
      (0 < amount → ∃ f, Event.create_transactions_2 [{ addr := addr, amount := amount }] f 0
          priority [ExtraNonce.payment_id payment_id] w.m_trustedDaemon ∈
        (createTransaction e h w dst_addr payment_id amount mixin_count priority).calls)) ∧
    (isHexString 16 payment_id = true →
      createTransaction_payment_id false payment_id =
        some [ExtraNonce.encrypted_payment_id payment_id] ∧
      (∀ dsts f u p ex t, Event.create_transactions_2 dsts f u p ex t ∈
          (createTransaction e h w dst_addr payment_id amount mixin_count priority).calls →
        ex = [ExtraNonce.encrypted_payment_id payment_id]) ∧
      (0 < amount → ∃ f, Event.create_transactions_2 [{ addr := addr, amount := amount }] f 0
          priority [ExtraNonce.encrypted_payment_id payment_id] w.m_trustedDaemon ∈
        (createTransaction e h w dst_addr payment_id amount mixin_count priority).calls)) ∧
    (isHexString 64 payment_id = false → isHexString 16 payment_id = false →
      (createTransaction e h w dst_addr payment_id amount mixin_count priority).res =
        .returned
          { m_status := .Status_Error
            m_errorString :=
              "payment id has invalid format, expected 16 or 64 character hex string: " ++
                payment_id
            m_pending_tx := [] } ∧
      (createTransaction e h w dst_addr payment_id amount mixin_count priority).w.m_status =
        .Status_Error ∧
      (createTransaction e h w dst_addr payment_id amount mixin_count priority).w.m_errorString =
        "payment id has invalid format, expected 16 or 64 character hex string: " ++
          payment_id ∧
      ∀ dsts f u p ex t, Event.create_transactions_2 dsts f u p ex t ∉
        (createTransaction e h w dst_addr payment_id amount mixin_count priority).calls) := by
  have hblock := createTransaction_payment_id_plain payment_id hne
  have hcalls : ∀ dsts f u p ex t, Event.create_transactions_2 dsts f u p ex t ∈
      (createTransaction e h w dst_addr payment_id amount mixin_count priority).calls →
      createTransaction_payment_id false payment_id = some ex := by
    intro dsts f u p ex t hmem
    obtain ⟨addr1, hp, short1, haddr, hextra, _⟩ :=
      createTransaction_call e h w dst_addr payment_id amount mixin_count priority
        dsts f u p ex t hmem
    rw [hplain] at haddr
    cases haddr
    exact hextra
  have hsome : ∀ extra, createTransaction_payment_id false payment_id = some extra →
      (∀ dsts f u p ex t, Event.create_transactions_2 dsts f u p ex t ∈
          (createTransaction e h w dst_addr payment_id amount mixin_count priority).calls →
        ex = extra) ∧
      (0 < amount → ∃ f, Event.create_transactions_2 [{ addr := addr, amount := amount }] f 0
          priority extra w.m_trustedDaemon ∈
        (createTransaction e h w dst_addr payment_id amount mixin_count priority).calls) := by
    intro extra hextra
    constructor
    · intro dsts f u p ex t hmem
      have h1 := hcalls dsts f u p ex t hmem
      rw [hextra] at h1
      cases h1
      rfl
    · intro hpos
      obtain ⟨f, hf⟩ := createTransaction_of_extra e h w dst_addr payment_id amount mixin_count
        priority addr short false extra hplain hextra hpos
      exact ⟨f, by rw [hf]; simp⟩
  refine ⟨fun h64 => ?_, fun h16 => ?_, fun h64 h16 => ?_⟩
  · have hb : createTransaction_payment_id false payment_id =
        some [ExtraNonce.payment_id payment_id] := by rw [hblock, if_pos h64]
    exact ⟨hb, hsome _ hb⟩
  · have h64 : ¬ isHexString 64 payment_id = true := by
      intro h64
      simp only [isHexString, Bool.and_eq_true, decide_eq_true_eq] at h64 h16
      omega
    have hb : createTransaction_payment_id false payment_id =
        some [ExtraNonce.encrypted_payment_id payment_id] := by
      rw [hblock, if_neg h64, if_pos h16]
    exact ⟨hb, hsome _ hb⟩
  · have hb : createTransaction_payment_id false payment_id = none := by
      rw [hblock, h64, h16]
      simp
    have hnone : ∀ dsts f u p ex t, Event.create_transactions_2 dsts f u p ex t ∉
        (createTransaction e h w dst_addr payment_id amount mixin_count priority).calls := by
      intro dsts f u p ex t hmem
      have h1 := hcalls dsts f u p ex t hmem
      rw [hb] at h1
      cases h1
    refine ⟨?_, ?_, ?_, hnone⟩ <;>
      simp [createTransaction, hplain, hb, createTransaction_return, tr, clearStatus]

/-- C6 amended, at a concrete input: the plain address of `quietEngine` with a
16-hex-character payment id; the engine is asked for a transfer whose extra
blob is the encrypted short-id nonce alone. -/
theorem payment_id_amended_witness :
    ∃ f, Event.create_transactions_2 [{ addr := "A", amount := 5 }] f 0 1
        [ExtraNonce.encrypted_payment_id "0123456789abcdef"] false ∈
      (createTransaction quietEngine [] WalletImpl.ctor "plain" "0123456789abcdef" 5 0 1).calls :=
  (payment_id_amended quietEngine [] WalletImpl.ctor "plain" "0123456789abcdef" 5 0 1 "A" ""
    rfl (by decide)).2.1 (by decide) |>.2.2 (by decide)

/-- C6 fails as stated: for the payment id `"xyz"` the error string is the
quoted message followed by `": xyz"`, not the quoted message. -/
theorem payment_id_counterexample :
    quietEngine.get_account_integrated_address_from_str false "plain" = some ("A", false, "") ∧
    (createTransaction quietEngine [] WalletImpl.ctor "plain" "xyz" 5 0 1).w.m_errorString =
      "payment id has invalid format, expected 16 or 64 character hex string: xyz" ∧
    (createTransaction quietEngine [] WalletImpl.ctor "plain" "xyz" 5 0 1).w.m_errorString ≠
      "payment id has invalid format, expected 16 or 64 character hex string" := by
  decide

/-- C7: with amount 0, `createTransaction` returns a transaction with status
Error, set by the address check, the payment-id check or the amount check; the
engine is never asked for a transfer; and the transaction's status is the
controller's. -/
theorem zero_amount_fails (e : Engine) (h : List Event) (w : WalletImpl)
    (dst_addr payment_id : String) (mixin_count priority : Nat) :
    ∃ tx, (createTransaction e h w dst_addr payment_id 0 mixin_count priority).res =
        .returned tx ∧
      tx.m_status = .Status_Error ∧
      (tx.m_errorString = "Invalid destination address" ∨
        tx.m_errorString =
          "payment id has invalid format, expected 16 or 64 character hex string: " ++
            payment_id ∨
        tx.m_errorString = "Invalid amount") ∧
      tx.m_pending_tx = [] ∧
      (∀ dsts f u p ex t, Event.create_transactions_2 dsts f u p ex t ∉
        (createTransaction e h w dst_addr payment_id 0 mixin_count priority).calls) ∧
      tx.m_status = (createTransaction e h w dst_addr payment_id 0 mixin_count priority).w.m_status ∧
      tx.m_errorString =
        (createTransaction e h w dst_addr payment_id 0 mixin_count priority).w.m_errorString := by
  have hnone : ∀ dsts f u p ex t, Event.create_transactions_2 dsts f u p ex t ∉
      (createTransaction e h w dst_addr payment_id 0 mixin_count priority).calls := by
    intro dsts f u p ex t hmem
    obtain ⟨_, _, _, _, _, hpos, _⟩ :=
      createTransaction_call e h w dst_addr payment_id 0 mixin_count priority dsts f u p ex t hmem
    exact absurd hpos (by decide)
  revert hnone
  unfold createTransaction
  simp only
  split
  · exact fun hnone => ⟨_, rfl, rfl, Or.inl rfl, rfl, hnone, rfl, rfl⟩
  · split
    · exact fun hnone => ⟨_, rfl, rfl, Or.inr (Or.inl rfl), rfl, hnone, rfl, rfl⟩
    · rw [if_pos (Nat.le_refl 0)]
      exact fun hnone => ⟨_, rfl, rfl, Or.inr (Or.inr rfl), rfl, hnone, rfl, rfl⟩

/-- C8: whenever `createTransaction` reaches the engine's transfer
construction, the ring size it passes is `mixin_count` if that is positive,
else the wallet's default mixin if that is positive, else 4; it is never 0, and
it is 4 when both are 0. -/
theorem mixin_resolution (e : Engine) (h : List Event) (w : WalletImpl)
    (dst_addr payment_id : String) (amount mixin_count priority : Nat)
    (dsts : List DestinationEntry) (f u p : Nat) (ex : List ExtraNonce) (t : Bool)
    (hcall : Event.create_transactions_2 dsts f u p ex t ∈
      (createTransaction e h w dst_addr payment_id amount mixin_count priority).calls) :
    f = (if mixin_count > 0 then mixin_count
          else if e.default_mixin h > 0 then e.default_mixin h else 4) ∧
    f ≠ 0 ∧
    (mixin_count = 0 → e.default_mixin h = 0 → f = 4) := by
  obtain ⟨_, _, _, _, _, _, _, hf, _⟩ :=
    createTransaction_call e h w dst_addr payment_id amount mixin_count priority dsts f u p ex t
      hcall
  subst hf
  unfold DEFAULT_MIXIN
  by_cases hm : mixin_count > 0
  · have hm0 : mixin_count ≠ 0 := by omega
    simp [hm, hm0]
  · have hm0 : mixin_count = 0 := by omega
    by_cases hd : e.default_mixin h = 0
    · simp [hm0, hd]
    · have hd1 : e.default_mixin h > 0 := by omega
      simp [hm0, hd, hd1]

/-- C8 at a concrete input: `mixin_count = 0` and a wallet default of 0; the
engine is asked for a transfer with ring size 4. -/
theorem mixin_resolution_witness :
    Event.create_transactions_2 [{ addr := "A", amount := 5 }] 4 0 1 [] false ∈
      (createTransaction quietEngine [] WalletImpl.ctor "plain" "" 5 0 1).calls ∧
    (4 : Nat) = (if (0 : Nat) > 0 then 0
      else if quietEngine.default_mixin [] > 0 then quietEngine.default_mixin [] else 4) :=
  ⟨by decide,
    (mixin_resolution quietEngine [] WalletImpl.ctor "plain" "" 5 0 1
      [{ addr := "A", amount := 5 }] 4 0 1 [] false (by decide)).1⟩

/-- Running two sequences of scheduler operations one after the other. -/
theorem runScheduler_append (ops1 ops2 : List SchedulerOp) (w : WalletImpl) :
    runScheduler (ops1 ++ ops2) w =
      ((runScheduler ops2 (runScheduler ops1 w).1).1,
        (runScheduler ops1 w).2 ++ (runScheduler ops2 (runScheduler ops1 w).1).2) := by
  induction ops1 generalizing w with
  | nil => simp [runScheduler]
  | cons op ops ih => simp [runScheduler, ih, List.append_assoc]

/-- No scheduler operation resets `m_refreshThreadDone`. -/
theorem done_stays (op : SchedulerOp) (w : WalletImpl) (hd : w.m_refreshThreadDone = true) :
    (op.run w).w.m_refreshThreadDone = true := by
  cases op <;>
    simp [SchedulerOp.run, startRefresh, pauseRefresh, refreshAsync, stopRefresh, clearStatus, hd]
  split <;> simp [hd]

/-- Along any sequence of scheduler operations, the thread has been joined
once if `m_refreshThreadDone` is set at the end and not at all otherwise,
provided it was not set at the start. -/
theorem join_count (ops : List SchedulerOp) (w : WalletImpl) :
    (w.m_refreshThreadDone = true → (runScheduler ops w).1.m_refreshThreadDone = true ∧
      (runScheduler ops w).2.count Event.join = 0) ∧
    (w.m_refreshThreadDone = false →
      (runScheduler ops w).2.count Event.join =
        if (runScheduler ops w).1.m_refreshThreadDone then 1 else 0) := by
  induction ops generalizing w with
  | nil =>
    constructor
    · intro hd
      simp [runScheduler, hd]
    · intro hd
      simp [runScheduler, hd]
  | cons op ops ih =>
    constructor
    · intro hd
      have h1 := done_stays op w hd
      have h2 := (ih (op.run w).w).1 h1
      refine ⟨h2.1, ?_⟩
      have hc : (op.run w).calls.count Event.join = 0 := by
        cases op <;>
          simp [SchedulerOp.run, startRefresh, pauseRefresh, refreshAsync, stopRefresh, hd]
        split <;> simp
      simp only [runScheduler, List.count_append, hc, h2.2]
    · intro hd
      cases op with
      | stopRefresh =>
        have hr : (SchedulerOp.stopRefresh.run w).w.m_refreshThreadDone = true := by
          simp [SchedulerOp.run, stopRefresh, hd]
        have hc : (SchedulerOp.stopRefresh.run w).calls.count Event.join = 1 := by
          simp [SchedulerOp.run, stopRefresh, hd]
        have h2 := (ih (SchedulerOp.stopRefresh.run w).w).1 hr
        simp only [runScheduler, List.count_append, hc, h2.2, h2.1, if_true]
      | startRefresh =>
        have hr : (SchedulerOp.startRefresh.run w).w.m_refreshThreadDone = false := by
          simp only [SchedulerOp.run, startRefresh]
          split <;> simp [hd]
        have hc : (SchedulerOp.startRefresh.run w).calls.count Event.join = 0 := by
          simp only [SchedulerOp.run, startRefresh]
          split <;> simp
        have h2 := (ih (SchedulerOp.startRefresh.run w).w).2 hr
        simp only [runScheduler, List.count_append, hc, h2, Nat.zero_add]
      | pauseRefresh =>
        have hr : (SchedulerOp.pauseRefresh.run w).w.m_refreshThreadDone = false := by
          simp [SchedulerOp.run, pauseRefresh, hd]
        have hc : (SchedulerOp.pauseRefresh.run w).calls.count Event.join = 0 := by
          simp [SchedulerOp.run, pauseRefresh, hd]
        have h2 := (ih (SchedulerOp.pauseRefresh.run w).w).2 hr
        simp only [runScheduler, List.count_append, hc, h2, Nat.zero_add]
      | refreshAsync =>
        have hr : (SchedulerOp.refreshAsync.run w).w.m_refreshThreadDone = false := by
          simp [SchedulerOp.run, refreshAsync, clearStatus, hd]
        have hc : (SchedulerOp.refreshAsync.run w).calls.count Event.join = 0 := by
          simp [SchedulerOp.run, refreshAsync]
        have h2 := (ih (SchedulerOp.refreshAsync.run w).w).2 hr
        simp only [runScheduler, List.count_append, hc, h2, Nat.zero_add]

/-- C9, as the code has it: `stopRefresh` twice leaves the same scheduler state
(indeed the same controller) as `stopRefresh` once; the second call joins
nothing; the two calls together join once when the scheduler was not yet
stopped and not at all when it was; after any sequence of scheduler operations
from construction followed by the two calls the thread has been joined exactly
once in all; and an operation leaves `m_refreshThreadDone` set when it was set,
setting it only in `stopRefresh`. -/
theorem stopRefresh_idempotent (w : WalletImpl) (ops : List SchedulerOp) (op : SchedulerOp) :
    (stopRefresh (stopRefresh w).w).w.refreshState = (stopRefresh w).w.refreshState ∧
    (stopRefresh (stopRefresh w).w).w = (stopRefresh w).w ∧
    (stopRefresh (stopRefresh w).w).calls = [] ∧
    Event.join ∉ (stopRefresh (stopRefresh w).w).calls ∧
    ((stopRefresh w).calls ++ (stopRefresh (stopRefresh w).w).calls).count Event.join =
      (if w.m_refreshThreadDone then 0 else 1) ∧
    (runScheduler (ops ++ [SchedulerOp.stopRefresh, SchedulerOp.stopRefresh])
      WalletImpl.ctor).2.count Event.join = 1 ∧
    (op.run w).w.m_refreshThreadDone =
      (w.m_refreshThreadDone || decide (op = SchedulerOp.stopRefresh)) := by
  refine ⟨?_, ?_, ?_, ?_, ?_, ?_, ?_⟩
  · cases hd : w.m_refreshThreadDone <;> simp [stopRefresh, hd]
  · cases hd : w.m_refreshThreadDone <;> simp [stopRefresh, hd]
  · cases hd : w.m_refreshThreadDone <;> simp [stopRefresh, hd]
  · cases hd : w.m_refreshThreadDone <;> simp [stopRefresh, hd]
  · cases hd : w.m_refreshThreadDone <;> simp [stopRefresh, hd]
  · have hj := (join_count (ops ++ [SchedulerOp.stopRefresh, SchedulerOp.stopRefresh])
      WalletImpl.ctor).2 rfl
    rw [hj]
    have hdone : (runScheduler (ops ++ [SchedulerOp.stopRefresh, SchedulerOp.stopRefresh])
        WalletImpl.ctor).1.m_refreshThreadDone = true := by
      rw [runScheduler_append]
      cases hd : (runScheduler ops WalletImpl.ctor).1.m_refreshThreadDone <;>
        simp [runScheduler, SchedulerOp.run, stopRefresh, hd]
    rw [hdone]
    rfl
  · cases hd : w.m_refreshThreadDone <;> cases op <;>
      simp [SchedulerOp.run, startRefresh, pauseRefresh, refreshAsync, stopRefresh, clearStatus,
        hd] <;>
      split <;> simp [hd]

/-- C9 fails as stated on a scheduler that is already stopped: after one
`stopRefresh` on the constructed controller, two further calls in succession
join the thread not once but not at all. -/
theorem stopRefresh_join_counterexample :
    (stopRefresh WalletImpl.ctor).w.m_refreshThreadDone = true ∧
    ((stopRefresh (stopRefresh WalletImpl.ctor).w).calls ++
      (stopRefresh (stopRefresh (stopRefresh WalletImpl.ctor).w).w).calls).count Event.join = 0 ∧
    ((stopRefresh (stopRefresh WalletImpl.ctor).w).calls ++
      (stopRefresh (stopRefresh (stopRefresh WalletImpl.ctor).w).w).calls).count Event.join ≠ 1 := by
  decide

/-- C10: on the constructed controller, whose scheduler is not stopped,
`stopRefresh` sets `m_refreshThreadDone`, clears `m_refreshEnabled` and joins
the thread, and that join is its only event: it does not signal
`m_refreshCV`, which `startRefresh` and `refreshAsync` do. -/
theorem stopRefresh_no_notify :
    WalletImpl.ctor.m_refreshThreadDone = false ∧
    (stopRefresh WalletImpl.ctor).w.m_refreshThreadDone = true ∧
    (stopRefresh WalletImpl.ctor).w.m_refreshEnabled = false ∧
    (stopRefresh WalletImpl.ctor).calls = [Event.join] ∧
    Event.notify_one ∉ (stopRefresh WalletImpl.ctor).calls ∧
    (startRefresh WalletImpl.ctor).calls = [Event.notify_one] ∧
    (refreshAsync WalletImpl.ctor).calls = [Event.notify_one] := by
  decide

/-- C11: for an output index that exists, a funds-received event issues
exactly `moneyReceived(hash, amount of that output)` and then `updated()` on
the registered listener, and a funds-spent event exactly `moneySpent` (hash of
the spending transaction, amount of the indexed output of the spent one) and
then `updated()`; with no listener registered nothing is issued; after
`setListener(a)` and then `setListener(b)` the callbacks are those for `b`
alone, none of them on another listener; a new-block event issues nothing. -/
theorem listener_bridge (w : WalletImpl) (height : Nat) (tx in_tx spend_tx : Transaction)
    (out_index amount spent : Nat) (a b : Option Nat)
    (hout : tx.vout[out_index]? = some amount)
    (hin : in_tx.vout[out_index]? = some spent) :
    on_money_received w height tx out_index =
      some (match w.m_listener with
        | some l =>
          [Event.listener l (Callback.moneyReceived tx.hash amount),
            Event.listener l Callback.updated]
        | none => []) ∧
    on_money_spent w height in_tx out_index spend_tx =
      some (match w.m_listener with
        | some l =>
          [Event.listener l (Callback.moneySpent spend_tx.hash spent),
            Event.listener l Callback.updated]
        | none => []) ∧
    (setListener (setListener w a) b).m_listener = b ∧
    on_money_received (setListener (setListener w a) b) height tx out_index =
      some (match b with
        | some l =>
          [Event.listener l (Callback.moneyReceived tx.hash amount),
            Event.listener l Callback.updated]
        | none => []) ∧
    on_money_spent (setListener (setListener w a) b) height in_tx out_index spend_tx =
      some (match b with
        | some l =>
          [Event.listener l (Callback.moneySpent spend_tx.hash spent),
            Event.listener l Callback.updated]
        | none => []) ∧
    (∀ evs, (on_money_received (setListener (setListener w a) b) height tx out_index = some evs ∨
        on_money_spent (setListener (setListener w a) b) height in_tx out_index spend_tx =
          some evs) →
      ∀ l cb, Event.listener l cb ∈ evs → b = some l) ∧
    on_new_block w height = [] := by
  have hrec : ∀ w1 : WalletImpl, on_money_received w1 height tx out_index =
      some (match w1.m_listener with
        | some l =>
          [Event.listener l (Callback.moneyReceived tx.hash amount),
            Event.listener l Callback.updated]
        | none => []) := by
    intro w1
    unfold on_money_received
    simp only [hout]
    cases w1.m_listener <;> rfl
  have hspent : ∀ w1 : WalletImpl, on_money_spent w1 height in_tx out_index spend_tx =
      some (match w1.m_listener with
        | some l =>
          [Event.listener l (Callback.moneySpent spend_tx.hash spent),
            Event.listener l Callback.updated]
        | none => []) := by
    intro w1
    unfold on_money_spent
    simp only [hin]
    cases w1.m_listener <;> rfl
  refine ⟨hrec w, hspent w, rfl, hrec _, hspent _, ?_, rfl⟩
  intro evs hevs l cb hmem
  rw [hrec, hspent] at hevs
  simp only [setListener] at hevs
  cases b with
  | none =>
    rcases hevs with hevs | hevs <;> cases hevs <;> simp at hmem
  | some lb =>
    rcases hevs with hevs | hevs <;> cases hevs <;>
      simp only [List.mem_cons, Event.listener.injEq, List.mem_singleton, List.not_mem_nil,
        or_false] at hmem <;>
      rcases hmem with ⟨rfl, _⟩ | ⟨rfl, _⟩ <;> rfl

/-- C11 at a concrete input: listener 1 is registered, then listener 2; funds
are received on output 1 of a transaction with outputs 30 and 70. -/
theorem listener_bridge_witness :
    on_money_received (setListener (setListener WalletImpl.ctor (some 1)) (some 2)) 100
        { hash := "ab12", vout := [30, 70] } 1 =
      some [Event.listener 2 (Callback.moneyReceived "ab12" 70),
        Event.listener 2 Callback.updated] ∧
    on_money_spent (setListener (setListener WalletImpl.ctor (some 1)) (some 2)) 100
        { hash := "cd34", vout := [5, 8] } 1 { hash := "ef56", vout := [] } =
      some [Event.listener 2 (Callback.moneySpent "ef56" 8),
        Event.listener 2 Callback.updated] :=
  have t := listener_bridge WalletImpl.ctor 100 { hash := "ab12", vout := [30, 70] }
    { hash := "cd34", vout := [5, 8] } { hash := "ef56", vout := [] } 1 70 8 (some 1) (some 2)
    rfl rfl
  ⟨t.2.2.2.1, t.2.2.2.2.1⟩

/-- Reading a trace that was extended: go on from where the first part
ended. -/
theorem passOwner_append (tr xs : List (Thread × Mark)) :
    passOwner (tr ++ xs) = xs.foldl trace_step (passOwner tr) := by
  simp [passOwner, List.foldl_append]

/-- Events that are not pass events do not change what the trace says about
the pass under way. -/
theorem passOwner_emit (s : Process) (t : Thread) (evs : List Event)
    (hevs : ∀ ev ∈ evs, isPassEvent ev = false) (htr : TraceInvariant s) :
    TraceInvariant (s.emit t evs) := by
  unfold TraceInvariant at htr ⊢
  have hfold : ∀ (xs : List Event) (cur : Option Thread),
      (∀ ev ∈ xs, isPassEvent ev = false) →
      (xs.map (fun ev => (t, Mark.event ev))).foldl trace_step (some cur) = some cur := by
    intro xs
    induction xs with
    | nil => intro cur _; rfl
    | cons ev xs ih =>
      intro cur hxs
      have hev : isPassEvent ev = false := hxs ev (List.mem_cons_self _ _)
      simp only [List.map_cons, List.foldl_cons, trace_step, hev]
      exact ih cur (fun ev1 h1 => hxs ev1 (List.mem_cons_of_mem _ h1))
  simp only [Process.emit]
  rw [passOwner_append, htr]
  exact hfold evs s.refreshMutex2 hevs

/-- One step inside `doRefresh` by a thread that owns `m_refreshMutex2`
exactly when its program point says so: afterwards it owns the mutex exactly
when its new program point says so, the ownership of every other thread is
as before, no program point has moved, and the trace still agrees with the
mutex. -/
theorem doRefresh_step_owner (e : Engine) (t : Thread) (s : Process) (p : PassPc)
    (hown : s.refreshMutex2 = some t ↔ p.holds = true) (htr : TraceInvariant s) :
    ((doRefresh_step e t s p).1.refreshMutex2 = some t ↔
      (doRefresh_step e t s p).2.holds = true) ∧
    (∀ t1, t1 ≠ t →
      ((doRefresh_step e t s p).1.refreshMutex2 = some t1 ↔ s.refreshMutex2 = some t1)) ∧
    (doRefresh_step e t s p).1.loopPc = s.loopPc ∧
    (doRefresh_step e t s p).1.callerPc = s.callerPc ∧
    TraceInvariant (doRefresh_step e t s p).1 := by
  unfold TraceInvariant at htr ⊢
  cases p with
  | lock =>
    simp only [PassPc.holds] at hown
    unfold doRefresh_step
    cases hm : s.refreshMutex2 with
    | none =>
      refine ⟨by simp [PassNext.holds, PassPc.holds], ?_, rfl, rfl, ?_⟩
      · intro t1 ht1
        simp only [Option.some.injEq]
        constructor
        · intro h
          exact absurd h.symm ht1
        · intro h
          cases h
      · simp only
        rw [passOwner_append, htr, hm]
        simp [trace_step]
    | some o =>
      refine ⟨?_, fun _ _ => ?_, rfl, rfl, ?_⟩
      · simp only [PassNext.holds, PassPc.holds]
        rw [hm]
        rw [hm] at hown
        simpa using hown
      · rw [hm]
      · simp only
        rw [htr, hm]
  | engine =>
    have ho : s.refreshMutex2 = some t := hown.mpr rfl
    unfold doRefresh_step
    cases e.refresh s.log with
    | ret u =>
      refine ⟨by simp [PassNext.holds, PassPc.holds, ho, Process.emit], fun _ _ => Iff.rfl, rfl,
        rfl, ?_⟩
      simp only [Process.emit, List.map_cons, List.map_nil]
      rw [passOwner_append, htr, ho]
      simp [trace_step, isPassEvent]
    | throw x =>
      cases hx : x.std_what with
      | some msg =>
        simp only [hx]
        refine ⟨by simp [PassNext.holds, PassPc.holds, ho, Process.emit],
          fun _ _ => by simp [Process.emit], by simp [Process.emit], by simp [Process.emit], ?_⟩
        simp only [Process.emit, List.map_cons, List.map_nil]
        rw [passOwner_append, htr, ho]
        simp [trace_step, isPassEvent]
      | none =>
        simp only [hx]
        refine ⟨by simp [PassNext.holds], ?_, by simp, by simp, ?_⟩
        · intro t1 ht1
          simp only [ho, Option.some.injEq]
          constructor
          · intro h
            cases h
          · intro h
            exact absurd h.symm ht1
        · show passOwner (s.trace ++ [(t, Mark.event Event.refresh), (t, Mark.leave)]) = some none
          rw [passOwner_append, htr, ho]
          simp [trace_step, isPassEvent]
  | listener =>
    have ho : s.refreshMutex2 = some t := hown.mpr rfl
    unfold doRefresh_step
    cases s.w.m_listener with
    | none =>
      exact ⟨by simp [PassNext.holds, PassPc.holds, ho], fun _ _ => Iff.rfl, rfl, rfl, htr⟩
    | some l =>
      refine ⟨by simp [PassNext.holds, PassPc.holds, ho, Process.emit], fun _ _ => Iff.rfl, rfl,
        rfl, ?_⟩
      simp only [Process.emit, List.map_cons, List.map_nil]
      rw [passOwner_append, htr, ho]
      simp [trace_step, isPassEvent]
  | unlock =>
    have ho : s.refreshMutex2 = some t := hown.mpr rfl
    unfold doRefresh_step
    refine ⟨by simp [PassNext.holds], ?_, rfl, rfl, ?_⟩
    · intro t1 ht1
      simp only [ho, Option.some.injEq]
      constructor
      · intro h
        cases h
      · intro h
        exact absurd h.symm ht1
    · simp only
      rw [passOwner_append, htr, ho]
      simp [trace_step]

/-- A step of the background thread keeps the lock discipline and the
agreement of the trace with the mutex. -/
theorem loop_step_invariant (e : Engine) (s : Process) (h : LockInvariant s)
    (htr : TraceInvariant s) :
    LockInvariant (loop_step e s) ∧ TraceInvariant (loop_step e s) := by
  obtain ⟨hl, hc⟩ := h
  unfold loop_step
  cases hpc : s.loopPc with
  | pass p =>
    rw [hpc] at hl
    obtain ⟨h1, h2, _, h4, h5⟩ := doRefresh_step_owner e Thread.loop s p hl htr
    have hcallers : ∀ n, (doRefresh_step e Thread.loop s p).1.refreshMutex2 =
        some (Thread.caller n) ↔
        ((doRefresh_step e Thread.loop s p).1.callerPc n).inPass = true := by
      intro n
      rw [h4]
      exact (h2 (Thread.caller n) (fun hc1 => nomatch hc1)).trans (hc n)
    simp only
    cases hr : (doRefresh_step e Thread.loop s p).2 with
    | inside q =>
      rw [hr] at h1
      exact ⟨⟨h1, hcallers⟩, h5⟩
    | returned =>
      rw [hr] at h1
      exact ⟨⟨h1, hcallers⟩, h5⟩
    | escaped x =>
      rw [hr] at h1
      exact ⟨⟨h1, hcallers⟩, h5⟩
  | acquire =>
    rw [hpc] at hl
    simp only
    split
    · exact ⟨⟨by rw [hpc]; exact hl, hc⟩, htr⟩
    · exact ⟨⟨hl, hc⟩, htr⟩
  | check_done =>
    rw [hpc] at hl
    simp only
    split <;> exact ⟨⟨hl, hc⟩, htr⟩
  | waiting =>
    rw [hpc] at hl
    simp only
    split
    · exact ⟨⟨by rw [hpc]; exact hl, hc⟩, htr⟩
    · exact ⟨⟨hl, hc⟩, htr⟩
  | check_enabled =>
    rw [hpc] at hl
    simp only
    split <;> exact ⟨⟨hl, hc⟩, htr⟩
  | release =>
    rw [hpc] at hl
    exact ⟨⟨hl, hc⟩, htr⟩
  | exited =>
    rw [hpc] at hl
    exact ⟨⟨by rw [hpc]; exact hl, hc⟩, htr⟩
  | aborted =>
    rw [hpc] at hl
    exact ⟨⟨by rw [hpc]; exact hl, hc⟩, htr⟩

/-- Moving caller `n` to a program point that agrees with the ownership of
`m_refreshMutex2` keeps the lock discipline. -/
theorem setCallerPc_invariant (s : Process) (n : Nat) (pc : CallerPc)
    (hl : s.refreshMutex2 = some Thread.loop ↔ s.loopPc.inPass = true)
    (hn : s.refreshMutex2 = some (Thread.caller n) ↔ pc.inPass = true)
    (hm : ∀ m, m ≠ n →
      (s.refreshMutex2 = some (Thread.caller m) ↔ (s.callerPc m).inPass = true)) :
    LockInvariant (s.setCallerPc n pc) := by
  refine ⟨hl, fun m => ?_⟩
  by_cases hmn : m = n
  · subst hmn
    simpa [Process.setCallerPc] using hn
  · simpa [Process.setCallerPc, hmn] using hm m hmn

/-- A step of a caller inside an operation keeps the lock discipline and the
agreement of the trace with the mutex. -/
theorem caller_step_invariant (e : Engine) (s : Process) (n : Nat) (h : LockInvariant s)
    (htr : TraceInvariant s) :
    LockInvariant (caller_step e s n) ∧ TraceInvariant (caller_step e s n) := by
  obtain ⟨hl, hc⟩ := h
  have hn := hc n
  unfold caller_step
  cases hpc : s.callerPc n with
  | idle => exact ⟨⟨hl, hc⟩, htr⟩
  | refresh_clear =>
    rw [hpc] at hn
    exact ⟨setCallerPc_invariant _ n _ hl hn (fun m _ => hc m), htr⟩
  | refresh_pass p =>
    rw [hpc] at hn
    obtain ⟨h1, h2, h3, h4, h5⟩ := doRefresh_step_owner e (Thread.caller n) s p hn htr
    have hloop : (doRefresh_step e (Thread.caller n) s p).1.refreshMutex2 = some Thread.loop ↔
        (doRefresh_step e (Thread.caller n) s p).1.loopPc.inPass = true := by
      rw [h3]
      exact (h2 Thread.loop (fun hc1 => nomatch hc1)).trans hl
    have hothers : ∀ m, m ≠ n →
        ((doRefresh_step e (Thread.caller n) s p).1.refreshMutex2 = some (Thread.caller m) ↔
          ((doRefresh_step e (Thread.caller n) s p).1.callerPc m).inPass = true) := by
      intro m hmn
      rw [h4]
      exact (h2 (Thread.caller m) (fun hc1 => hmn (Thread.caller.inj hc1))).trans (hc m)
    simp only
    cases hr : (doRefresh_step e (Thread.caller n) s p).2 with
    | inside q =>
      rw [hr] at h1
      exact ⟨setCallerPc_invariant _ n _ hloop h1 hothers, h5⟩
    | returned =>
      rw [hr] at h1
      exact ⟨setCallerPc_invariant _ n _ hloop h1 hothers, h5⟩
    | escaped x =>
      rw [hr] at h1
      exact ⟨setCallerPc_invariant _ n _ hloop h1 hothers, h5⟩
  | refresh_return =>
    rw [hpc] at hn
    exact ⟨setCallerPc_invariant _ n _ hl hn (fun m _ => hc m), htr⟩
  | stop_join =>
    rw [hpc] at hn
    simp only
    split
    · exact ⟨setCallerPc_invariant _ n _ hl hn (fun m _ => hc m), htr⟩
    · exact ⟨⟨hl, hc⟩, htr⟩

/-- The events of the scheduler operations are not pass events. -/
theorem scheduler_events_not_pass (w : WalletImpl) :
    (∀ ev ∈ (refreshAsync w).calls, isPassEvent ev = false) ∧
    (∀ ev ∈ (startRefresh w).calls, isPassEvent ev = false) ∧
    (∀ ev ∈ (pauseRefresh w).calls, isPassEvent ev = false) ∧
    (∀ ev ∈ (stopRefresh w).calls, isPassEvent ev = false) := by
  refine ⟨?_, ?_, ?_, ?_⟩
  · intro ev hev
    simp only [refreshAsync, List.mem_singleton] at hev
    subst hev
    rfl
  · intro ev hev
    unfold startRefresh at hev
    split at hev
    · simp only [List.mem_singleton] at hev
      subst hev
      rfl
    · simp at hev
  · intro ev hev
    unfold pauseRefresh at hev
    split at hev <;> simp at hev
  · intro ev hev
    unfold stopRefresh at hev
    split at hev
    · simp only [List.mem_singleton] at hev
      subst hev
      rfl
    · simp at hev

/-- An idle caller beginning an operation keeps the lock discipline and the
agreement of the trace with the mutex. -/
theorem call_step_invariant (s : Process) (n : Nat) (op : CallerOp) (h : LockInvariant s)
    (htr : TraceInvariant s) (hidle : s.callerPc n = .idle) :
    LockInvariant (call_step s n op) ∧ TraceInvariant (call_step s n op) := by
  obtain ⟨hl, hc⟩ := h
  have hn := hc n
  rw [hidle] at hn
  obtain ⟨ha, hs, hp, hst⟩ := scheduler_events_not_pass s.w
  cases op with
  | refresh => exact ⟨setCallerPc_invariant _ n _ hl hn (fun m _ => hc m), htr⟩
  | refreshAsync =>
    exact ⟨⟨hl, hc⟩,
      passOwner_emit { s with w := (refreshAsync s.w).w } (Thread.caller n) _ ha htr⟩
  | startRefresh =>
    exact ⟨⟨hl, hc⟩,
      passOwner_emit { s with w := (startRefresh s.w).w } (Thread.caller n) _ hs htr⟩
  | pauseRefresh =>
    exact ⟨⟨hl, hc⟩,
      passOwner_emit { s with w := (pauseRefresh s.w).w } (Thread.caller n) _ hp htr⟩
  | stopRefresh =>
    simp only [call_step]
    split
    · exact ⟨setCallerPc_invariant _ n _ hl hn (fun m _ => hc m),
        passOwner_emit { s with w := (stopRefresh s.w).w } (Thread.caller n) _ hst htr⟩
    · exact ⟨⟨hl, hc⟩, htr⟩
  | setListener l => exact ⟨⟨hl, hc⟩, htr⟩

/-- Every scheduling step keeps the lock discipline and the agreement of the
trace with the mutex. -/
theorem step_invariant (e : Engine) (s : Process) (a : Action) (h : LockInvariant s)
    (htr : TraceInvariant s) :
    LockInvariant (step e s a) ∧ TraceInvariant (step e s a) := by
  unfold step
  split
  · exact ⟨h, htr⟩
  · cases a with
    | loop => exact loop_step_invariant e s h htr
    | call n op =>
      simp only
      split
      · rename_i hidle
        exact call_step_invariant s n op h htr hidle
      · exact ⟨h, htr⟩
    | caller n => exact caller_step_invariant e s n h htr

/-- The lock discipline and the agreement of the trace with the mutex hold
along every interleaving that starts in a state where they hold. -/
theorem run_invariant (e : Engine) (acts : List Action) (s : Process) (h : LockInvariant s)
    (htr : TraceInvariant s) :
    LockInvariant (run e acts s) ∧ TraceInvariant (run e acts s) := by
  induction acts generalizing s with
  | nil => exact ⟨h, htr⟩
  | cons a acts ih =>
    exact ih (step e s a) (step_invariant e s a h htr).1 (step_invariant e s a h htr).2

/-- The lock discipline and the agreement of the trace with the mutex hold
right after construction. -/
theorem ctor_invariant : LockInvariant Process.ctor ∧ TraceInvariant Process.ctor :=
  ⟨⟨by simp [Process.ctor, LoopPc.inPass], fun n => by simp [Process.ctor, CallerPc.inPass]⟩,
    rfl⟩

/-- Once a trace has shown two passes at the same time, no continuation
repairs it. -/
theorem trace_step_none (xs : List (Thread × Mark)) : xs.foldl trace_step none = none := by
  induction xs with
  | nil => rfl
  | cons x xs ih => simpa [List.foldl_cons, trace_step] using ih

/-- In a serialized trace every pass event is emitted by the thread whose pass
is under way at that moment. -/
theorem passOwner_event (pre post : List (Thread × Mark)) (t : Thread) (ev : Event)
    (hser : serialized (pre ++ (t, Mark.event ev) :: post) = true)
    (hev : isPassEvent ev = true) : passOwner pre = some (some t) := by
  unfold serialized at hser
  rw [passOwner_append, List.foldl_cons] at hser
  cases hpre : passOwner pre with
  | none =>
    rw [hpre] at hser
    simp [trace_step, trace_step_none] at hser
  | some owner =>
    rw [hpre] at hser
    by_cases ho : owner = some t
    · rw [ho]
    · simp [trace_step, hev, ho, trace_step_none] at hser

/-- In a serialized trace a pass begins only when no pass is under way. -/
theorem passOwner_enter (pre post : List (Thread × Mark)) (t : Thread)
    (hser : serialized (pre ++ (t, Mark.enter) :: post) = true) :
    passOwner pre = some none := by
  unfold serialized at hser
  rw [passOwner_append, List.foldl_cons] at hser
  cases hpre : passOwner pre with
  | none =>
    rw [hpre] at hser
    simp [trace_step, trace_step_none] at hser
  | some owner =>
    rw [hpre] at hser
    by_cases ho : owner = none
    · rw [ho]
    · simp [trace_step, ho, trace_step_none] at hser

/-- An interleaving in which both threads want a pass: the background thread,
enabled by `startRefresh`, is inside its pass when caller 1 enters `refresh()`;
the caller stays at the `lock_guard` until the background thread has left
`doRefresh`, and only then enters the body and calls the engine. -/
theorem pass_blocked_example :
    (run quietEngine
      [Action.call 0 CallerOp.startRefresh, Action.loop, Action.loop, Action.loop, Action.loop,
        Action.loop, Action.call 1 CallerOp.refresh, Action.caller 1, Action.caller 1,
        Action.caller 1] Process.ctor).loopPc = LoopPc.pass PassPc.engine ∧
    (run quietEngine
      [Action.call 0 CallerOp.startRefresh, Action.loop, Action.loop, Action.loop, Action.loop,
        Action.loop, Action.call 1 CallerOp.refresh, Action.caller 1, Action.caller 1,
        Action.caller 1] Process.ctor).callerPc 1 = CallerPc.refresh_pass PassPc.lock ∧
    (run quietEngine
      [Action.call 0 CallerOp.startRefresh, Action.loop, Action.loop, Action.loop, Action.loop,
        Action.loop, Action.call 1 CallerOp.refresh, Action.caller 1, Action.caller 1,
        Action.caller 1, Action.loop, Action.loop, Action.loop, Action.caller 1, Action.caller 1]
      Process.ctor).trace =
      [(Thread.caller 0, Mark.event Event.notify_one), (Thread.loop, Mark.enter),
        (Thread.loop, Mark.event Event.refresh), (Thread.loop, Mark.leave),
        (Thread.caller 1, Mark.enter), (Thread.caller 1, Mark.event Event.refresh)] := by
  decide

/-- A trace in which a caller's engine call falls inside the background
thread's pass is not serialized. -/
theorem overlap_not_serialized :
    serialized
      [(Thread.loop, Mark.enter), (Thread.loop, Mark.event Event.refresh),
        (Thread.caller 1, Mark.event Event.refresh),
        (Thread.loop, Mark.event (Event.listener 7 Callback.refreshed)),
        (Thread.loop, Mark.leave)] = false ∧
    serialized
      [(Thread.loop, Mark.enter), (Thread.loop, Mark.event Event.refresh),
        (Thread.caller 1, Mark.enter), (Thread.caller 1, Mark.event Event.refresh),
        (Thread.caller 1, Mark.leave), (Thread.loop, Mark.leave)] = false := by
  decide

/-- A caller that runs `refresh()` with no other thread stepping in between
leaves the controller and the event history as the one-step `refresh` does. -/
theorem refresh_alone (e : Engine) (s : Process) (n : Nat)
    (hidle : s.callerPc n = .idle) (hfree : s.refreshMutex2 = none)
    (hlive : s.loopPc ≠ .aborted) :
    (run e [Action.call n CallerOp.refresh, Action.caller n, Action.caller n, Action.caller n,
      Action.caller n, Action.caller n, Action.caller n] s).w = (refresh e s.log s.w).w ∧
    (run e [Action.call n CallerOp.refresh, Action.caller n, Action.caller n, Action.caller n,
      Action.caller n, Action.caller n, Action.caller n] s).log =
        s.log ++ (refresh e s.log s.w).calls ∧
    (run e [Action.call n CallerOp.refresh, Action.caller n, Action.caller n, Action.caller n,
      Action.caller n, Action.caller n, Action.caller n] s).callerPc n = .idle ∧
    (run e [Action.call n CallerOp.refresh, Action.caller n, Action.caller n, Action.caller n,
      Action.caller n, Action.caller n, Action.caller n] s).refreshMutex2 = none := by
  have h1 : Mark.toEvent Mark.enter = none := rfl
  have h2 : Mark.toEvent Mark.leave = none := rfl
  have h3 : ∀ ev, Mark.toEvent (Mark.event ev) = some ev := fun _ => rfl
  cases hr : e.refresh (List.filterMap (fun x => x.2.toEvent) s.trace) with
  | ret u =>
    cases hlis : s.w.m_listener <;>
      simp [run, step, hlive, call_step, caller_step, Process.setCallerPc, hidle, doRefresh_step,
        hfree, hr, hlis, refresh, doRefresh, clearStatus, doRefresh_listener, Process.log,
        Process.emit, List.filterMap_append, h1, h2, h3]
  | throw x =>
    cases hx : x.std_what with
    | none =>
      simp [run, step, hlive, call_step, caller_step, Process.setCallerPc, hidle, doRefresh_step,
        hfree, hr, hx, refresh, doRefresh, clearStatus, doRefresh_listener, Process.log,
        Process.emit, List.filterMap_append, h1, h2, h3]
    | some msg =>
      cases hlis : s.w.m_listener <;>
        simp [run, step, hlive, call_step, caller_step, Process.setCallerPc, hidle,
          doRefresh_step, hfree, hr, hx, hlis, refresh, doRefresh, clearStatus,
          doRefresh_listener, Process.log, Process.emit, List.filterMap_append, h1, h2, h3]

/-- C12: along every interleaving of the background thread and any number of
caller threads from construction, whatever the engine does, the trace is
serialized: a pass begins only when no pass is under way; every engine
`refresh` call and every `refreshed()` notification is made by the thread whose
pass is under way at that moment; the background thread and a caller are never
both executing the body of `doRefresh`, nor are two callers; and the thread
whose pass is under way is the owner of `m_refreshMutex2`. -/
theorem pass_serialized (e : Engine) (acts : List Action) :
    serialized (run e acts Process.ctor).trace = true ∧
    (∀ pre post t, (run e acts Process.ctor).trace = pre ++ (t, Mark.enter) :: post →
      passOwner pre = some none) ∧
    (∀ pre post t, (run e acts Process.ctor).trace =
        pre ++ (t, Mark.event Event.refresh) :: post →
      passOwner pre = some (some t)) ∧
    (∀ pre post t l, (run e acts Process.ctor).trace =
        pre ++ (t, Mark.event (Event.listener l Callback.refreshed)) :: post →
      passOwner pre = some (some t)) ∧
    (∀ n, ¬ ((run e acts Process.ctor).loopPc.inPass = true ∧
      ((run e acts Process.ctor).callerPc n).inPass = true)) ∧
    (∀ n m, ((run e acts Process.ctor).callerPc n).inPass = true →
      ((run e acts Process.ctor).callerPc m).inPass = true → n = m) ∧
    passOwner (run e acts Process.ctor).trace = some (run e acts Process.ctor).refreshMutex2 ∧
    LockInvariant (run e acts Process.ctor) := by
  obtain ⟨hinv, htr⟩ := run_invariant e acts Process.ctor ctor_invariant.1 ctor_invariant.2
  have hser : serialized (run e acts Process.ctor).trace = true := by
    unfold serialized
    rw [htr]
    rfl
  refine ⟨hser, ?_, ?_, ?_, ?_, ?_, htr, hinv⟩
  · intro pre post t heq
    rw [heq] at hser
    exact passOwner_enter pre post t hser
  · intro pre post t heq
    rw [heq] at hser
    exact passOwner_event pre post t _ hser rfl
  · intro pre post t l heq
    rw [heq] at hser
    exact passOwner_event pre post t _ hser rfl
  · intro n hboth
    have h1 := hinv.1.mpr hboth.1
    have h2 := (hinv.2 n).mpr hboth.2
    rw [h1] at h2
    cases h2
  · intro n m hn hm
    have h1 := (hinv.2 n).mpr hn
    have h2 := (hinv.2 m).mpr hm
    rw [h1] at h2
    cases h2
    rfl

end Bitmonero
